import Mathlib

/-!
# linuxptp-daemon: the e810 hardware plugin

A shallow embedding of `addons/intel/e810.go` (the PCI extended-capability walk
`getClockIdE810` and the three plugin hooks) and of the telemetry line parser of
`pkg/daemon`, with the properties of the specification stated and settled against it.

Conventions of the embedding

* a byte is a `Fin 256`; a byte slice is a `List Byte`;
* `uint16` arithmetic is arithmetic on `Nat` reduced `% 65536`;
* a Go run-time panic (slice bounds out of range, index out of range) is the outcome
  `Run.crash`; an unbounded `for` loop is run under a step budget and `Run.running`
  says that the budget is used up while the loop is still going;
* a Go `map` is an association list: the order of the list is the order in which
  `range` visits the entries (Go leaves that order unspecified, so a statement about
  the code quantifies over every list);
* the file system and the external commands are explicit parameters.
-/

set_option maxRecDepth 100000

namespace Intel

/-! ## Bytes, slices and `encoding/binary` -/

/-- One byte of a file. -/
abbrev Byte := Fin 256

/-- Outcome of a Go function run under a step budget. -/
inductive Run (α : Type) where
  /-- the function returned this value -/
  | ret (a : α)
  /-- the function stopped in a run-time panic -/
  | crash
  /-- the step budget is used up and the function has not returned yet -/
  | running
  deriving DecidableEq, Repr

/-- The slice expression `b[off:]`: it panics (`none`) when `off > len(b)`. -/
def sliceFrom (b : List Byte) (off : Nat) : Option (List Byte) :=
  if off ≤ b.length then some (b.drop off) else none

/-- The function `binary.LittleEndian.Uint16`: `uint16(b[0]) | uint16(b[1])<<8`, with the
bounds check `_ = b[1]` that panics (`none`) on a slice shorter than two bytes. -/
def Uint16 : List Byte → Option Nat
  | b0 :: b1 :: _ => some (b0.val + 256 * b1.val)
  | _ => none

/-- The function `binary.LittleEndian.Uint64`: the eight bytes `b[0] .. b[7]`, least
significant first, with the bounds check `_ = b[7]` that panics (`none`) on a slice
shorter than eight bytes. -/
def Uint64 : List Byte → Option Nat
  | b0 :: b1 :: b2 :: b3 :: b4 :: b5 :: b6 :: b7 :: _ =>
    some (b0.val + 256 * b1.val + 256 ^ 2 * b2.val + 256 ^ 3 * b3.val + 256 ^ 4 * b4.val
      + 256 ^ 5 * b5.val + 256 ^ 6 * b6.val + 256 ^ 7 * b7.val)
  | _ => none

/-! ## `getClockIdE810` -/

/-- Capability id of the Device Serial Number extended capability. -/
def PCI_EXT_CAP_ID_DSN : Nat := 3
/-- Size of the legacy configuration header; the extended capabilities start here. -/
def PCI_CFG_SPACE_SIZE : Nat := 256
/-- Offset of the next-pointer word inside a capability record. -/
def PCI_EXT_CAP_NEXT_OFFSET : Nat := 2
/-- Number of type bits below the next pointer. -/
def PCI_EXT_CAP_OFFSET_SHIFT : Nat := 4
/-- Offset of the capability data inside a capability record. -/
def PCI_EXT_CAP_DATA_OFFSET : Nat := 4

/-- The ways control leaves the `for` loop of `getClockIdE810`. -/
inductive LoopExit where
  /-- the statement `return 0` under `id == 0` -/
  | returned (v : Nat)
  /-- the statement `break`, with the value `offset` has then -/
  | broke (offset : Nat)
  deriving DecidableEq, Repr

/-- The `for` loop of `getClockIdE810` on the file content `b`, started with the variable
`offset` and allowed `fuel` iterations. -/
def capWalk (b : List Byte) : Nat → Nat → Run LoopExit
  | 0, _ => Run.running
  | fuel + 1, offset =>
    match (sliceFrom b offset).bind Uint16 with
    | none => Run.crash
    | some id =>
      if id ≠ PCI_EXT_CAP_ID_DSN then
        if id = 0 then Run.ret (LoopExit.returned 0)
        else
          match (sliceFrom b ((offset + PCI_EXT_CAP_NEXT_OFFSET) % 65536)).bind Uint16 with
          | none => Run.crash
          | some w => capWalk b fuel (w >>> PCI_EXT_CAP_OFFSET_SHIFT)
      else Run.ret (LoopExit.broke offset)

/-- The path `getClockIdE810` reads the configuration space of `device` from. -/
def configPath (device : String) : String :=
  "/sys/class/net/" ++ device ++ "/device/config"

/-- The part of `getClockIdE810` that follows a successful `os.ReadFile`, on the bytes `b`
of the file. -/
def clockIdOfImage (fuel : Nat) (b : List Byte) : Run Nat :=
  match capWalk b fuel PCI_CFG_SPACE_SIZE with
  | Run.running => Run.running
  | Run.crash => Run.crash
  | Run.ret (LoopExit.returned v) => Run.ret v
  | Run.ret (LoopExit.broke offset) =>
    match (sliceFrom b ((offset + PCI_EXT_CAP_DATA_OFFSET) % 65536)).bind Uint64 with
    | none => Run.crash
    | some v => Run.ret v

/-- The function `getClockIdE810`. `readFile` is `os.ReadFile` (`none` is an error) and
`fuel` bounds the number of iterations of the loop. -/
def getClockIdE810 (fuel : Nat) (readFile : String → Option (List Byte)) (device : String) :
    Run Nat :=
  match readFile (configPath device) with
  | none => Run.ret 0
  | some b => clockIdOfImage fuel b

/-! ## The capability chain, in the words of the specification -/

/-- Little-endian value of a run of bytes. -/
def leValue : List Byte → Nat
  | [] => 0
  | x :: rest => x.val + 256 * leValue rest

/-- The `n` bytes of the image `b` at the offsets `off .. off + n - 1`. -/
def bytesAt (b : List Byte) (off n : Nat) : List Byte :=
  (b.drop off).take n

/-- The little-endian 16-bit word at offset `off`, when both of its bytes lie inside the
image. -/
def wordAt (b : List Byte) (off : Nat) : Option Nat :=
  if off + 2 ≤ b.length then some (leValue (bytesAt b off 2)) else none

/-- One link of the chain: from a record at `o` whose header lies inside the image and
whose capability id is neither 0 nor 3, the offset of the next record (the word at
`o + 2`, shifted right by 4). -/
def chainNext (b : List Byte) (o : Nat) : Option Nat :=
  match wordAt b o, wordAt b (o + 2) with
  | some id, some w => if id ≠ 0 ∧ id ≠ 3 then some (w / 16) else none
  | _, _ => none

/-- The record the chain reaches from offset `o` after `n` links. -/
def chainFrom (b : List Byte) : Nat → Nat → Option Nat
  | o, 0 => some o
  | o, n + 1 => (chainNext b o).bind fun o1 => chainFrom b o1 n

/-! ## Go maps and the profile -/

/-- A Go `map[string]α`, as the list of its entries in the order `range` visits them. -/
abbrev GoMap (α : Type) := List (String × α)

/-- The lookup `m[k]` (`none`: the key is absent). -/
def GoMap.get {α : Type} : GoMap α → String → Option α
  | [], _ => none
  | (k, v) :: m, x => if x = k then some v else GoMap.get m x

/-- The statement `delete(m, x)`. -/
def GoMap.erase {α : Type} : GoMap α → String → GoMap α
  | [], _ => []
  | (k, v) :: m, x => if k = x then GoMap.erase m x else (k, v) :: GoMap.erase m x

/-- The assignment `m[k] = v`. -/
def GoMap.set {α : Type} (m : GoMap α) (k : String) (v : α) : GoMap α :=
  (k, v) :: m.erase k

/-- The keys of a map. -/
def GoMap.keys {α : Type} (m : GoMap α) : List String :=
  m.map Prod.fst

/-- The type `E810UblxCmds`. -/
structure E810UblxCmds where
  ReportOutput : Bool
  Args : List String
  deriving DecidableEq, Repr

/-- The type `E810Opts`: what `json.Unmarshal` decodes the options block of the plugin
to. The values of `DpllSettings` are `uint64`. -/
structure E810Opts where
  EnableDefaultConfig : Bool
  UblxCmds : List E810UblxCmds
  DevicePins : GoMap (GoMap String)
  DpllSettings : GoMap Nat
  PhaseOffsetPins : GoMap (GoMap String)
  deriving Repr

/-- The fields of `ptpv1.PtpProfile` the plugin uses. An entry of `Plugins` holds the
options block as decoded into `E810Opts`; `PtpSettings` is `none` for a nil map. -/
structure PtpProfile where
  Plugins : GoMap E810Opts
  PtpSettings : Option (GoMap String)
  deriving Repr

/-- What the plugin does to the world outside the profile. -/
inductive Effect where
  /-- the call `exec.Command(name, args...)` was run -/
  | exec (name : String) (args : List String)
  /-- the call `os.WriteFile(path, []byte(data), 0666)` -/
  | writeFile (path : String) (data : String)
  deriving DecidableEq, Repr

/-- The world the plugin runs in. -/
structure Env where
  /-- the function `os.ReadFile`; `none` is an error -/
  readFile : String → Option (List Byte)
  /-- the function `os.ReadDir`, as the names of the entries; `none` is an error -/
  readDir : String → Option (List String)
  /-- the 64-bit value `crypto/rand` delivers at the i-th draw of a call -/
  entropy : Nat → Nat
  /-- the combined output of the i-th external command of a call -/
  combinedOutput : Nat → String → List String → String
  /-- the constant `dpll.ClockIdStr` (declared in `pkg/dpll`) -/
  ClockIdStr : String

/-- Sequencing of two steps of Go code. -/
def Run.bind {α β : Type} (r : Run α) (f : α → Run β) : Run β :=
  match r with
  | Run.ret a => f a
  | Run.crash => Run.crash
  | Run.running => Run.running

/-- A `for ... range` loop whose body may panic or not return. -/
def forRange {α σ : Type} (body : σ → α → Run σ) : List α → σ → Run σ
  | [], s => Run.ret s
  | a :: rest, s => (body s a).bind fun s1 => forRange body rest s1

/-- The function `strings.HasPrefix`. -/
def startsWith (s pre : String) : Bool :=
  pre.toList.isPrefixOf s.toList

/-- The function `strconv.FormatUint(v, 10)`. -/
def FormatUint (v : Nat) : String :=
  Nat.repr v

/-! ## `OnPTPConfigChangeE810` -/

/-- The script `EnableE810PTPConfig`, by name (its text is not interpreted here). -/
def EnableE810PTPConfig : String := "EnableE810PTPConfig"

/-- The state `OnPTPConfigChangeE810` works on. -/
structure ConfigState where
  /-- the map `(*nodeProfile).PtpSettings` -/
  PtpSettings : Option (GoMap String)
  /-- the effects so far, oldest first -/
  effects : List Effect
  /-- the number of draws from `crypto/rand` so far -/
  draws : Nat
  deriving Repr

/-- Lookup in the settings of a state; a nil map has no key. -/
def ConfigState.get (st : ConfigState) (k : String) : Option String :=
  match st.PtpSettings with
  | none => none
  | some m => m.get k

/-- Assignment in the settings of a state (the map is not nil when the code assigns). -/
def ConfigState.set (st : ConfigState) (k v : String) : ConfigState :=
  { st with PtpSettings := some ((st.PtpSettings.getD []).set k v) }

/-- The value of `deviceDir`. -/
def deviceDir (device : String) : String :=
  "/sys/class/net/" ++ device ++ "/device/ptp/"

/-- The value of `pinPath` when the file is written (lines 120-124). -/
def pinPath (device phc pin : String) : String :=
  if startsWith pin "SDP" then
    "/sys/class/net/" ++ device ++ "/device/ptp/" ++ phc ++ "/period"
  else
    "/sys/class/net/" ++ device ++ "/device/ptp/" ++ phc ++ "/pins/" ++ pin

/-- The loop `for _, phc := range phcs` (lines 119-130). -/
def writePin (device pin value : String) (phcs : List String) (fx : List Effect) :
    List Effect :=
  phcs.foldl (fun fx phc => fx ++ [Effect.writeFile (pinPath device phc pin) value]) fx

/-- The loop `for pin, value := range pins` (lines 111-131). -/
def writePins (env : Env) (device : String) (pins : GoMap String) (fx : List Effect) :
    List Effect :=
  pins.foldl (fun fx e =>
    match env.readDir (deviceDir device) with
    | none => fx
    | some phcs => writePin device e.1 e.2 phcs fx) fx

/-- The key `dpllClockIdStr` of a device. -/
def dpllClockIdStr (env : Env) (device : String) : String :=
  env.ClockIdStr ++ "[" ++ device ++ "]"

/-- The body of the loop `for device, pins := range e810Opts.DevicePins`
(lines 101-131). -/
def deviceBody (fuel : Nat) (env : Env) (st : ConfigState) (e : String × GoMap String) :
    Run ConfigState :=
  let device := e.1
  let pins := e.2
  let st1 : Run ConfigState :=
    if (st.get "unitTest").isSome then
      Run.ret { st.set (dpllClockIdStr env device) (FormatUint (env.entropy st.draws % 2 ^ 64))
                with draws := st.draws + 1 }
    else
      (getClockIdE810 fuel env.readFile device).bind fun id =>
        Run.ret (st.set (dpllClockIdStr env device) (FormatUint id))
  st1.bind fun st2 => Run.ret { st2 with effects := writePins env device pins st2.effects }

/-- The body of the loop `for k, v := range e810Opts.DpllSettings` (lines 134-136). -/
def dpllBody (st : ConfigState) (e : String × Nat) : Run ConfigState :=
  if (st.get e.1).isNone then Run.ret (st.set e.1 (FormatUint e.2)) else Run.ret st

/-- The key written for a property of a phase-offset pin (line 152). -/
def phaseKey (iface id pinProperty : String) : String :=
  ".".intercalate [iface, "phaseOffsetFilter", id, pinProperty]

/-- The body of the loop `for pinProperty, value := range properties` (lines 152-153). -/
def propertyBody (fuel : Nat) (env : Env) (iface : String) (st : ConfigState)
    (e : String × String) : Run ConfigState :=
  (getClockIdE810 fuel env.readFile iface).bind fun id =>
    Run.ret (st.set (phaseKey iface (FormatUint id) e.1) e.2)

/-- The loop `for dev := range e810Opts.DevicePins` that computes `ifaceFound`
(lines 139-145). -/
def ifaceFound (iface : String) (devicePins : GoMap (GoMap String)) : Bool :=
  devicePins.any fun e => decide (iface = e.1)

/-- The loop `for iface, properties := range e810Opts.PhaseOffsetPins` (lines 138-155):
it is left by `break` at the first interface that is not a key of `DevicePins`. -/
def phaseLoop (fuel : Nat) (env : Env) (devicePins : GoMap (GoMap String)) :
    GoMap (GoMap String) → ConfigState → Run ConfigState
  | [], st => Run.ret st
  | (iface, properties) :: rest, st =>
    if ifaceFound iface devicePins then
      (forRange (propertyBody fuel env iface) properties st).bind fun st1 =>
        phaseLoop fuel env devicePins rest st1
    else Run.ret st

/-- The statement `if e810Opts.EnableDefaultConfig` (lines 93-96): the script is run. -/
def enableDefaultConfig (e810Opts : E810Opts) (st : ConfigState) : ConfigState :=
  if e810Opts.EnableDefaultConfig then
    { st with effects := st.effects ++ [Effect.exec "/usr/bin/bash" ["-c", EnableE810PTPConfig]] }
  else st

/-- The statement `if (*nodeProfile).PtpSettings == nil` (lines 97-99): a nil map is
replaced by an empty one. -/
def makeSettings (st : ConfigState) : ConfigState :=
  match st.PtpSettings with
  | none => { st with PtpSettings := some [] }
  | some _ => st

/-- The body of `if name == "e810"` in `OnPTPConfigChangeE810` (lines 88-155), for the
decoded options `e810Opts`. -/
def configE810 (fuel : Nat) (env : Env) (e810Opts : E810Opts) (st : ConfigState) :
    Run ConfigState :=
  (forRange (deviceBody fuel env) e810Opts.DevicePins
      (makeSettings (enableDefaultConfig e810Opts st))).bind fun st3 =>
    (forRange dpllBody e810Opts.DpllSettings st3).bind fun st4 =>
      phaseLoop fuel env e810Opts.DevicePins e810Opts.PhaseOffsetPins st4

/-- The body of the loop `for name, opts := range (*nodeProfile).Plugins`. -/
def pluginBody (fuel : Nat) (env : Env) (st : ConfigState) (e : String × E810Opts) :
    Run ConfigState :=
  if e.1 = "e810" then configE810 fuel env e.2 st else Run.ret st

/-- The function `OnPTPConfigChangeE810`: the profile it leaves and the effects it had,
oldest first (the `error` it returns is always nil). -/
def OnPTPConfigChangeE810 (fuel : Nat) (env : Env) (nodeProfile : PtpProfile) :
    Run (PtpProfile × List Effect) :=
  (forRange (pluginBody fuel env) nodeProfile.Plugins
      { PtpSettings := nodeProfile.PtpSettings, effects := [], draws := 0 }).bind fun st =>
    Run.ret ({ nodeProfile with PtpSettings := st.PtpSettings }, st.effects)

/-! ## The private state of the plugin, `AfterRunPTPCommandE810`, `PopulateHwConfigE810` -/

/-- The type `E810PluginData`: `hwplugins` is a pointer to a slice, `none` when nil. -/
structure E810PluginData where
  hwplugins : Option (List String)
  deriving DecidableEq, Repr

/-- The value of the `interface{}` the argument `data` points to. -/
inductive PluginValue where
  /-- the nil interface -/
  | nilValue
  /-- a `*E810PluginData`; `none` is the nil pointer -/
  | e810 (pluginData : Option E810PluginData)
  /-- a value of another type -/
  | other
  deriving DecidableEq, Repr

/-- The fields of `ptpv1.HwConfig` the plugin sets (the others keep their zero value). -/
structure HwConfig where
  DeviceID : String
  Status : String
  deriving DecidableEq, Repr

/-- The function `getDefaultUblxCmds`. -/
def getDefaultUblxCmds : List E810UblxCmds :=
  let cfgMsgNavClock : E810UblxCmds := { ReportOutput := false, Args := ["-p", "CFG-MSG,1,34,1"] }
  let cfgMsgNavStatus : E810UblxCmds := { ReportOutput := false, Args := ["-p", "CFG-MSG,1,3,1"] }
  let cfgSave : E810UblxCmds := { ReportOutput := false, Args := ["-p", "SAVE"] }
  [cfgMsgNavClock, cfgMsgNavStatus, cfgSave]

/-- The state `AfterRunPTPCommandE810` works on. -/
structure CommandState where
  /-- the argument `data` (`none`: a nil pointer) with what it points to -/
  data : Option PluginValue
  /-- the effects so far, oldest first -/
  effects : List Effect
  /-- the number of external commands run so far -/
  runs : Nat
  deriving Repr

/-- The body of the loop over the ublx commands (lines 180-193). -/
def ublxBody (env : Env) (st : CommandState) (ublxOpt : E810UblxCmds) : Run CommandState :=
  let ublxArgs := ublxOpt.Args
  let stdout := env.combinedOutput st.runs "/usr/local/bin/ubxtool" ublxArgs
  let st1 : CommandState :=
    { st with effects := st.effects ++ [Effect.exec "/usr/local/bin/ubxtool" ublxArgs],
              runs := st.runs + 1 }
  match st1.data with
  | none => Run.crash
  | some _data =>
    if ublxOpt.ReportOutput then
      match _data with
      | PluginValue.e810 (some pluginData) =>
        match pluginData.hwplugins with
        | some hw =>
          let statusString := "ublx data: " ++ stdout
          let appended : E810PluginData := { hwplugins := some (hw ++ [statusString]) }
          Run.ret { st1 with data := some (PluginValue.e810 (some appended)) }
        | none => Run.crash
      | _ => Run.crash
    else Run.ret st1

/-- The body of the loop over the plugins in `AfterRunPTPCommandE810`. -/
def commandBody (env : Env) (command : String) (st : CommandState)
    (e : String × E810Opts) : Run CommandState :=
  if e.1 = "e810" then
    if command = "gpspipe" then
      forRange (ublxBody env) (e.2.UblxCmds ++ getDefaultUblxCmds) st
    else Run.ret st
  else Run.ret st

/-- The function `AfterRunPTPCommandE810`: the private state it leaves and the effects it
had, oldest first (the `error` it returns is always nil). -/
def AfterRunPTPCommandE810 (env : Env) (data : Option PluginValue)
    (nodeProfile : PtpProfile) (command : String) : Run (Option PluginValue × List Effect) :=
  (forRange (commandBody env command) nodeProfile.Plugins
      { data := data, effects := [], runs := 0 }).bind fun st =>
    Run.ret (st.data, st.effects)

/-- The function `PopulateHwConfigE810`: the private state it leaves and the caller's
list `*hwconfigs` (the `error` it returns is always nil). -/
def PopulateHwConfigE810 (data : Option PluginValue) (hwconfigs : List HwConfig) :
    Run (Option PluginValue × List HwConfig) :=
  match data with
  | none => Run.ret (data, hwconfigs)
  | some (PluginValue.e810 (some _pluginData)) =>
    match _pluginData.hwplugins with
    | none => Run.ret (data, hwconfigs)
    | some hw =>
      Run.ret (data, hw.foldl (fun acc _hwconfig =>
        acc ++ [{ DeviceID := "e810", Status := _hwconfig }]) hwconfigs)
  | some _ => Run.crash

/-- The private state of a plugin that holds the status strings `ss`. -/
def pluginState (ss : List String) : Option PluginValue :=
  some (PluginValue.e810 (some { hwplugins := some ss }))

/-- The status strings of the reported commands, in the words of the specification: for
each command whose `reportOutput` is set, `ublx data: ` followed by the output of that
command, which is the `i`-th of the call. -/
def statusFrom (env : Env) : Nat → List E810UblxCmds → List String
  | _, [] => []
  | i, c :: cs =>
    (if c.ReportOutput then
        ["ublx data: " ++ env.combinedOutput i "/usr/local/bin/ubxtool" c.Args]
      else [])
      ++ statusFrom env (i + 1) cs

/-! ## The effects of `OnPTPConfigChangeE810`, also when it does not return -/

/-- The state a `for ... range` loop is in when it stops: after its last iteration, or at
the start of the iteration that does not return. -/
def forRangeStop {α σ : Type} (body : σ → α → Run σ) : List α → σ → σ
  | [], s => s
  | a :: rest, s =>
    match body s a with
    | Run.ret s1 => forRangeStop body rest s1
    | _ => s

/-- The effects the body of `if name == "e810"` has had when it stops. An iteration of
the loop over the devices that does not return stops in `getClockIdE810`, before the pin
writes of its device, and the loops that follow the loop over the devices have no
effects. -/
def configE810Effects (fuel : Nat) (env : Env) (e810Opts : E810Opts) (st : ConfigState) :
    List Effect :=
  (forRangeStop (deviceBody fuel env) e810Opts.DevicePins
    (makeSettings (enableDefaultConfig e810Opts st))).effects

/-- The effects the loop over the plugins has had when it stops. -/
def pluginEffects (fuel : Nat) (env : Env) : GoMap E810Opts → ConfigState → List Effect
  | [], st => st.effects
  | e :: rest, st =>
    if e.1 = "e810" then
      match configE810 fuel env e.2 st with
      | Run.ret st1 => pluginEffects fuel env rest st1
      | _ => configE810Effects fuel env e.2 st
    else pluginEffects fuel env rest st

/-- The effects `OnPTPConfigChangeE810` has had when it stops, whether it returns, stops
in a panic or has used up its step budget. -/
def effectsOnPTPConfigChangeE810 (fuel : Nat) (env : Env) (nodeProfile : PtpProfile) :
    List Effect :=
  pluginEffects fuel env nodeProfile.Plugins
    { PtpSettings := nodeProfile.PtpSettings, effects := [], draws := 0 }

/-- The run of the default-configuration script, when the options enable it. -/
def scriptRun (opts : E810Opts) : List Effect :=
  if opts.EnableDefaultConfig then [Effect.exec "/usr/bin/bash" ["-c", EnableE810PTPConfig]]
  else []

/-! ## The keys the plugin writes, in the words of the specification -/

/-- Lookup in the settings of a profile; a nil map has no key. -/
def settingsGet (m : Option (GoMap String)) (k : String) : Option String :=
  match m with
  | none => none
  | some m => m.get k

/-- The key `k` is the clock-identity key of a device listed in the pins of an `e810`
block of the profile. -/
def ClockIdKey (env : Env) (p : PtpProfile) (k : String) : Prop :=
  ∃ e ∈ p.Plugins, e.1 = "e810" ∧ ∃ d ∈ e.2.DevicePins.keys, k = dpllClockIdStr env d

/-- The identity `getClockIdE810` returns for a device within `fuel` iterations (0 when
it does not return). -/
def resolved (fuel : Nat) (env : Env) (device : String) : Nat :=
  match getClockIdE810 fuel env.readFile device with
  | Run.ret id => id
  | _ => 0

/-- The entries of the phase-offset pins the loop of lines 138-155 assigns: those it
visits before it is left at the first interface that is not listed in the pins. -/
def phaseVisited (opts : E810Opts) : GoMap (GoMap String) :=
  opts.PhaseOffsetPins.takeWhile fun io => ifaceFound io.1 opts.DevicePins

/-- The key `k` is a phase-offset-filter key the call assigns:
`<iface>.phaseOffsetFilter.<clockId>.<property>` for an interface and property of the
phase-offset pins of an `e810` block of the profile that the loop visits, where
`<clockId>` is the base-10 rendering of the identity `getClockIdE810` returns for the
interface. -/
def PhaseFilterKey (fuel : Nat) (env : Env) (p : PtpProfile) (k : String) : Prop :=
  ∃ e ∈ p.Plugins, e.1 = "e810" ∧ ∃ io ∈ phaseVisited e.2, ∃ pe ∈ io.2,
    k = io.1 ++ ".phaseOffsetFilter." ++ FormatUint (resolved fuel env io.1) ++ "." ++ pe.1

/-- Every device listed in the pins of an `e810` block of the profile has a configuration
space on which `getClockIdE810` returns within `fuel` iterations. -/
def Resolves (fuel : Nat) (env : Env) (p : PtpProfile) : Prop :=
  ∀ e ∈ p.Plugins, e.1 = "e810" → ∀ d ∈ e.2.DevicePins.keys,
    ∃ id, getClockIdE810 fuel env.readFile d = Run.ret id

/-- The settings of `st` keep every key of `g`, and its value too unless the key is one
of `W`. -/
def Keeps (g : String → Option String) (W : String → Prop) (st : ConfigState) : Prop :=
  ∀ k v, g k = some v → (st.get k).isSome ∧ (st.get k = some v ∨ W k)

/-! ## The pin writes, in the words of the specification -/

/-- The path a pin value is written to: the period control of the PHC for a pin whose
name starts with `SDP`, the pin control of that name otherwise. -/
def expectedPinPath (device phc pin : String) : String :=
  if pin.toList.take 3 = ['S', 'D', 'P'] then
    "/sys/class/net/" ++ device ++ "/device/ptp/" ++ phc ++ "/period"
  else
    "/sys/class/net/" ++ device ++ "/device/ptp/" ++ phc ++ "/pins/" ++ pin

/-- The PHC directories of a device: the entries of its `ptp` directory, none when the
directory cannot be read. -/
def phcsOf (env : Env) (device : String) : List String :=
  (env.readDir ("/sys/class/net/" ++ device ++ "/device/ptp/")).getD []

/-- The writes of the configured pin values: for every device, every pin of the device
and every PHC directory of the device, the configured value to the expected path. -/
def expectedWrites (env : Env) (opts : E810Opts) : List Effect :=
  opts.DevicePins.flatMap fun dp =>
    dp.2.flatMap fun pv =>
      (phcsOf env dp.1).map fun phc => Effect.writeFile (expectedPinPath dp.1 phc pv.1) pv.2

/-! ## Sample configuration spaces -/

/-- A file system that holds the one file `path`, with the content `b`. -/
def oneFile (path : String) (b : List Byte) : String → Option (List Byte) :=
  fun p => if p = path then some b else none

/-- A 284-byte image: a zeroed legacy header, at 256 a record with capability id 1 whose
next pointer is 272, and at 272 the Device Serial Number record (id 3, next pointer 0)
with the serial number bytes `11 22 33 44 55 66 77 88`. -/
def dsnImage : List Byte :=
  List.replicate 256 0 ++ [0x01, 0x00, 0x01, 0x11] ++ List.replicate 12 0
    ++ [0x03, 0x00, 0x01, 0x00] ++ [0x11, 0x22, 0x33, 0x44, 0x55, 0x66, 0x77, 0x88]

/-- A 260-byte image with a zeroed legacy header: the only record, at 256, has capability
id 1 and a next pointer of zero. -/
def endImage : List Byte :=
  List.replicate 256 0 ++ [0x01, 0x00, 0x01, 0x00]

/-- A 260-byte image with the vendor id `8086` and the device id `1000` in its legacy
header: the only extended capability, at 256, has capability id 1 and a next pointer of
zero. -/
def wanderImage : List Byte :=
  [0x86, 0x80, 0x00, 0x10] ++ List.replicate 252 0 ++ [0x01, 0x00, 0x01, 0x00]

/-- A 357-byte image with the legacy header of an Intel E810 (vendor id `8086`, device id
`1593`): the only extended capability, at 256, has capability id 1 and a next pointer of
zero; the bytes at 345 .. 356 read `03 00 01 00` and `01 02 03 04 05 06 07 08`. -/
def strayImage : List Byte :=
  [0x86, 0x80, 0x93, 0x15] ++ List.replicate 252 0 ++ [0x01, 0x00, 0x01, 0x00]
    ++ List.replicate 85 0 ++ [0x03, 0x00, 0x01, 0x00]
    ++ [0x01, 0x02, 0x03, 0x04, 0x05, 0x06, 0x07, 0x08]

/-- The 256 bytes of a configuration space without extended capabilities (a conventional
PCI function, or a read that is cut after the legacy header). -/
def legacyImage : List Byte :=
  List.replicate 256 0

/-- A 260-byte image whose record at 256 (capability id 1) has the next pointer 512, past
the end of the image. -/
def danglingImage : List Byte :=
  List.replicate 256 0 ++ [0x01, 0x00, 0x01, 0x20]

/-- A 264-byte image whose record at 256 is the Device Serial Number record, cut after
the first four bytes of the serial number. -/
def truncatedDsnImage : List Byte :=
  List.replicate 256 0 ++ [0x03, 0x00, 0x01, 0x00] ++ [0x11, 0x22, 0x33, 0x44]

/-- A 260-byte image whose record at 256 (capability id 1) has the next pointer 256: the
chain is a cycle of one record. -/
def cycleImage : List Byte :=
  List.replicate 256 0 ++ [0x01, 0x00, 0x01, 0x10]

/-- A world without readable files, with the clock-identity label `clockId`. -/
def bareEnv : Env where
  readFile := fun _ => none
  readDir := fun _ => none
  entropy := fun _ => 0
  combinedOutput := fun _ _ _ => ""
  ClockIdStr := "clockId"

/-- An options block that lists the device `ens1f0` (without pins) and the DPLL setting
`LocalMaxHoldoverOffSet`. -/
def plainOpts : E810Opts where
  EnableDefaultConfig := false
  UblxCmds := []
  DevicePins := [("ens1f0", [])]
  DpllSettings := [("LocalMaxHoldoverOffSet", 1500)]
  PhaseOffsetPins := []

/-- A profile with the block `plainOpts` whose settings already hold a clock identity for
`ens1f0` and a value for the DPLL setting. -/
def presetProfile : PtpProfile where
  Plugins := [("e810", plainOpts)]
  PtpSettings := some [("clockId[ens1f0]", "42"), ("LocalMaxHoldoverOffSet", "7")]

/-- A world with the device `ens1f0`: its configuration space is `dsnImage`, its `ptp`
directory holds `ptp0`, and the clock-identity label is `clockId`. -/
def dsnEnv : Env where
  readFile := oneFile (configPath "ens1f0") dsnImage
  readDir := fun p => if p = "/sys/class/net/ens1f0/device/ptp/" then some ["ptp0"] else none
  entropy := fun _ => 0
  combinedOutput := fun _ _ _ => ""
  ClockIdStr := "clockId"

/-- An options block for `ens1f0`: two pins, a DPLL setting and a phase-offset pin. -/
def pinOpts : E810Opts where
  EnableDefaultConfig := false
  UblxCmds := []
  DevicePins := [("ens1f0", [("SMA1", "0 1"), ("SDP22", "2 0 0 1 0")])]
  DpllSettings := [("LocalMaxHoldoverOffSet", 1500)]
  PhaseOffsetPins := [("ens1f0", [("boardLabel", "GNSS-1PPS")])]

/-- A profile with the block `pinOpts` and a nil settings map. -/
def pinProfile : PtpProfile where
  Plugins := [("e810", pinOpts)]
  PtpSettings := none

/-- An options block in which the phase-offset-filter key of the interface `clockId[a`
and the property `b]` is the clock-identity key of the device `a.phaseOffsetFilter.0.b`. -/
def collidingOpts : E810Opts where
  EnableDefaultConfig := false
  UblxCmds := []
  DevicePins := [("clockId[a", []), ("a.phaseOffsetFilter.0.b", [])]
  DpllSettings := []
  PhaseOffsetPins := [("clockId[a", [("b]", "GNSS-1PPS")])]

/-- A profile with the block `collidingOpts` and a nil settings map. -/
def collidingProfile : PtpProfile where
  Plugins := [("e810", collidingOpts)]
  PtpSettings := none

/-- A world whose `ubxtool` answers the `i`-th command with its number and first
argument. -/
def gpsEnv : Env where
  readFile := fun _ => none
  readDir := fun _ => none
  entropy := fun _ => 0
  combinedOutput := fun i _ args => Nat.repr i ++ ":" ++ args.headD ""
  ClockIdStr := "clockId"

/-- An options block with three ublx commands, the first and the last reported. -/
def gpsOpts : E810Opts where
  EnableDefaultConfig := false
  UblxCmds := [{ ReportOutput := true, Args := ["-p", "MON-VER"] },
    { ReportOutput := false, Args := ["-z", "CFG-HW-ANT_CFG_VOLTCTRL,1"] },
    { ReportOutput := true, Args := ["-v", "1"] }]
  DevicePins := []
  DpllSettings := []
  PhaseOffsetPins := []

/-- A profile with the block `gpsOpts`. -/
def gpsProfile : PtpProfile where
  Plugins := [("e810", gpsOpts)]
  PtpSettings := none

end Intel

namespace Daemon

/-! ## The telemetry line parser and the metric sink of `pkg/daemon`

`ProcessPTPMetrics` is called by `daemon_test.go`; its code is not among the source
files, so the definitions of this section follow the specification (§3, §4.1, §4.2, §6),
with the gauge values of the states taken from the constants of the test. The gauges of
a sample are kept under the interface name of its line, as §4.2 says (the test expects
the gauges of the interface `ens2f0` under the name `ens2fx`, which the specification
does not describe). Numbers are integers (the status lines of `phc2sys` and `ts2phc`
print 64-bit integers); time, and with it the holdover timeout, is not part of the
model. -/

/-- Modelled from the spec: the three clock-quality states of §4.1, the result type of the
absent token table. -/
inductive ClockQuality where
  | FREERUN
  | LOCKED
  | HOLDOVER
  deriving DecidableEq, Repr

/-- Modelled from the spec: the value of the clock-state gauge for a state, absent from
the source files; the constants `s0 = 0`, `s2 = 1`, `s1 = 2` of the test. -/
def ClockQuality.gauge : ClockQuality → Int
  | ClockQuality.FREERUN => 0
  | ClockQuality.LOCKED => 1
  | ClockQuality.HOLDOVER => 2

/-- Modelled from the spec: the static, case-sensitive table from discrete-state tokens to
states (§4.1), absent from the source files: `s0` is FREERUN and `s2` is LOCKED (§8);
`s1` is given the remaining state, as the constant `s1 = 2` of the test suggests. -/
def stateOfToken (t : String) : Option ClockQuality :=
  if t = "s0" then some ClockQuality.FREERUN
  else if t = "s1" then some ClockQuality.HOLDOVER
  else if t = "s2" then some ClockQuality.LOCKED
  else none

/-- Modelled from the spec: a white-space character, for the absent tokenizer. -/
def isSpace (c : Char) : Bool :=
  c = ' ' || c = '\t' || c = '\n' || c = '\r'

/-- Modelled from the spec: the absent tokenizer; the fields of the characters `cs`, where
`cur` holds the characters of the field being read, last first. -/
def splitFields : List Char → List Char → List String
  | [], cur => if cur = [] then [] else [String.mk cur.reverse]
  | c :: cs, cur =>
    if isSpace c then
      if cur = [] then splitFields cs [] else String.mk cur.reverse :: splitFields cs []
    else splitFields cs (c :: cur)

/-- Modelled from the spec: the absent tokenizer; the fields of a line, the maximal runs
of characters that are not white space. -/
def Fields (line : String) : List String :=
  splitFields line.toList []

/-- Modelled from the spec: the absent numeric decoding; the value of a run of decimal
digits, `none` when a character is not a digit. -/
def parseDigits : List Char → Nat → Option Nat
  | [], acc => some acc
  | c :: cs, acc => if c.isDigit then parseDigits cs (10 * acc + (c.toNat - 48)) else none

/-- Modelled from the spec: the absent numeric decoding of a field (§4.1): an optional
sign and decimal digits; `none` is a numeric parsing failure. -/
def parseNum (s : String) : Option Int :=
  match s.toList with
  | [] => none
  | c :: ds =>
    if c = '-' then
      (if ds = [] then none else (parseDigits ds 0).map fun n : Nat => -(n : Int))
    else if c = '+' then
      (if ds = [] then none else (parseDigits ds 0).map fun n : Nat => (n : Int))
    else (parseDigits (c :: ds) 0).map fun n : Nat => (n : Int)

/-- Modelled from the spec: the absent range check of §4.2; a value of 64-bit magnitude. -/
def inRange (v : Int) : Bool :=
  decide (-(2 ^ 63) ≤ v) && decide (v < 2 ^ 63)

/-- Modelled from the spec: the literal field markers the absent parser searches for
(§4.1). -/
def markers : List String := ["phc", "master", "offset", "freq", "delay"]

/-- Modelled from the spec: the absent marker search; the field that follows the first
occurrence of the marker `m`. -/
def afterMarker (m : String) : List String → Option String
  | a :: b :: rest => if a = m then some b else afterMarker m (b :: rest)
  | _ => none

/-- Modelled from the spec: the absent marker search; the field that follows the value of
the marker `m` (for `offset`: the discrete-state token). -/
def secondAfterMarker (m : String) : List String → Option String
  | a :: b :: c :: rest => if a = m then some c else secondAfterMarker m (b :: c :: rest)
  | _ => none

/-- Modelled from the spec: the absent marker search; the first source marker (`phc` or
`master`) that follows another field, with that field, the interface. -/
def sourceOf : List String → Option (String × String)
  | a :: b :: rest =>
    if b = "phc" ∨ b = "master" then some (a, b) else sourceOf (b :: rest)
  | _ => none

/-- Modelled from the spec: the MetricSample of §3, the result type of the absent
parser. -/
structure MetricSample where
  source : String
  iface : String
  offset : Int
  frequencyAdjustment : Int
  delay : Int
  state : Option ClockQuality
  deriving DecidableEq, Repr

/-- Modelled from the spec: the ClockThreshold of §3, absent from the source files: the
holdover timeout and the acceptable offsets. -/
structure PtpClockThreshold where
  HoldOverTimeout : Int
  MaxOffsetThreshold : Int
  MinOffsetThreshold : Int
  deriving DecidableEq, Repr

/-- Modelled from the spec: the ProcessDescriptor of §3 (the absent type
`daemon.PtpProcess`): the logical name, the message tag, the set of interfaces the
process reports on and its ClockThreshold. -/
structure PtpProcess where
  Name : String
  MessageTag : String
  Ifaces : List String
  PtpClockThreshold : PtpClockThreshold
  deriving DecidableEq, Repr

/-- Modelled from the spec: the absent Line Parser `parse` of §4.1, for the process types
`phc2sys` and `ts2phc`, on a line that carries the message tag of the process. A line
without the markers yields nothing; so does a matched field that is not a number or is
out of range; an absent `delay` field is a delay of 0. -/
def parse (processType messageTag rawLine : String) : Option MetricSample :=
  let fields := Fields rawLine
  if (processType = "phc2sys" ∨ processType = "ts2phc") ∧ messageTag ∈ fields then
    match sourceOf fields, afterMarker "offset" fields, afterMarker "freq" fields with
    | some (iface, source), some so, some sf =>
      match parseNum so, parseNum sf,
        (match afterMarker "delay" fields with
          | none => some (0 : Int)
          | some sd => parseNum sd) with
      | some o, some f, some d =>
        if inRange o && inRange f && inRange d then
          some { source := source, iface := iface, offset := o, frequencyAdjustment := f,
                 delay := d,
                 state := (secondAfterMarker "offset" fields).bind stateOfToken }
        else none
      | _, _, _ => none
    | _, _, _ => none
  else none

/-- Modelled from the spec: the absent Metric Sink of §6, registered for a node; the
gauges keyed by (source, process, node, interface), and the clock-state gauge keyed by
(process, node, interface); `none` is a gauge that was never set. -/
structure Gauges where
  node : String
  Offset : String × String × String × String → Option Int
  MaxOffset : String × String × String × String → Option Int
  FrequencyAdjustment : String × String × String × String → Option Int
  Delay : String × String × String × String → Option Int
  ClockState : String × String × String → Option Int

/-- Modelled from the spec: the absent method `Set` of a gauge. -/
def setGauge {κ : Type} [DecidableEq κ] (g : κ → Option Int) (k : κ) (v : Int) :
    κ → Option Int :=
  fun x => if x = k then some v else g x

/-- Modelled from the spec: the absent function `ProcessPTPMetrics`; the Line Parser of
§4.1 followed by the gauge updates of the Clock State Tracker of §4.2: an accepted sample
sets, for its source, the process, the node and its interface name, the offset gauge and
the max-offset gauge to the offset (an overwrite), the frequency-adjustment and
path-delay gauges to their values, and the clock-state gauge to the reported state; any
other line changes nothing. -/
def ProcessPTPMetrics (p : PtpProcess) (g : Gauges) (output : String) : Gauges :=
  match parse p.Name p.MessageTag output with
  | none => g
  | some sample =>
    let key := (sample.source, p.Name, g.node, sample.iface)
    { node := g.node,
      Offset := setGauge g.Offset key sample.offset,
      MaxOffset := setGauge g.MaxOffset key sample.offset,
      FrequencyAdjustment := setGauge g.FrequencyAdjustment key sample.frequencyAdjustment,
      Delay := setGauge g.Delay key sample.delay,
      ClockState :=
        match sample.state with
        | none => g.ClockState
        | some q => setGauge g.ClockState (p.Name, g.node, sample.iface) q.gauge }

/-- A number as a status line prints it: decimal digits, after `-` for a negative number
and, when `plus` is set, after `+` for any other. -/
def numeral (plus : Bool) (v : Int) : String :=
  if v < 0 then "-" ++ Nat.repr v.natAbs
  else (if plus then "+" else "") ++ Nat.repr v.toNat

/-- The gauges of the node `mynode` after `cleanupMetrics`, for every key. -/
def cleanGauges : Gauges where
  node := "mynode"
  Offset := fun _ => some (-12345678)
  MaxOffset := fun _ => some (-12345678)
  FrequencyAdjustment := fun _ => some (-12345678)
  Delay := fun _ => some (-12345678)
  ClockState := fun _ => some (-12345678)

/-- The threshold the test attaches to the process. -/
def testThreshold : PtpClockThreshold where
  HoldOverTimeout := 5
  MaxOffsetThreshold := 100
  MinOffsetThreshold := -100

/-- The process of the first test case. -/
def phc2sysProcess : PtpProcess where
  Name := "phc2sys"
  MessageTag := "[ptp4l.0.config]"
  Ifaces := []
  PtpClockThreshold := testThreshold

/-- The process of the second and third test case. -/
def ts2phcProcess : PtpProcess where
  Name := "ts2phc"
  MessageTag := "[ts2phc.0.config]"
  Ifaces := []
  PtpClockThreshold := testThreshold

end Daemon

namespace Intel

/-! ## The order of iteration -/

/-- The entries of the phase-offset pins: interface, property and value. -/
def phaseEntries (pins : GoMap (GoMap String)) : List (String × String × String) :=
  pins.flatMap fun io => io.2.map fun pe => (io.1, pe.1, pe.2)

/-- The phase-offset-filter keys of the entries, in the words of the specification:
`<iface>.phaseOffsetFilter.<clockId>.<property>`, each with the value of its entry. -/
def phaseAssignments (fuel : Nat) (env : Env) (pins : GoMap (GoMap String)) :
    List (String × String) :=
  (phaseEntries pins).map fun t =>
    (t.1 ++ ".phaseOffsetFilter." ++ FormatUint (resolved fuel env t.1) ++ "." ++ t.2.1, t.2.2)

/-- The assignments `l`, one after the other, on the settings of a state. -/
def setAll (l : List (String × String)) (st : ConfigState) : ConfigState :=
  l.foldl (fun s e => s.set e.1 e.2) st

/-- The options `opts1` are the options `opts` with the pins, the settings and the
phase-offset pins (and the properties of each interface) visited in another order. -/
def Reordered (opts opts1 : E810Opts) : Prop :=
  opts.DevicePins.keys.Perm opts1.DevicePins.keys ∧
  opts.DpllSettings.Perm opts1.DpllSettings ∧
  opts.PhaseOffsetPins.keys.Perm opts1.PhaseOffsetPins.keys ∧
  (phaseEntries opts.PhaseOffsetPins).Perm (phaseEntries opts1.PhaseOffsetPins)

/-- A profile with the one plugin block `opts` and a nil settings map. -/
def profileOf (opts : E810Opts) : PtpProfile where
  Plugins := [("e810", opts)]
  PtpSettings := none

/-- Options whose phase-offset pins name `ens1f0`, which is listed in the pins, and
`ens9f9`, which is not; `ens1f0` is visited first. -/
def listedFirstOpts : E810Opts where
  EnableDefaultConfig := false
  UblxCmds := []
  DevicePins := [("ens1f0", [])]
  DpllSettings := []
  PhaseOffsetPins := [("ens1f0", [("boardLabel", "GNSS-1PPS")]),
    ("ens9f9", [("boardLabel", "SMA1")])]

/-- The options `listedFirstOpts` with `ens9f9` visited first. -/
def listedLastOpts : E810Opts where
  EnableDefaultConfig := false
  UblxCmds := []
  DevicePins := [("ens1f0", [])]
  DpllSettings := []
  PhaseOffsetPins := [("ens9f9", [("boardLabel", "SMA1")]),
    ("ens1f0", [("boardLabel", "GNSS-1PPS")])]

/-- Options in which two phase-offset pins, both of interfaces listed in the pins, have
the same phase-offset-filter key `a.phaseOffsetFilter.0.b.phaseOffsetFilter.0.c` (in a
world where the identities are 0) and different values. -/
def clashOpts : E810Opts where
  EnableDefaultConfig := false
  UblxCmds := []
  DevicePins := [("a", []), ("a.phaseOffsetFilter.0.b", [])]
  DpllSettings := []
  PhaseOffsetPins := [("a", [("b.phaseOffsetFilter.0.c", "SMA1")]),
    ("a.phaseOffsetFilter.0.b", [("c", "SMA2")])]

/-- The options `clashOpts` with the phase-offset pins visited in the other order. -/
def clashOptsSwapped : E810Opts where
  EnableDefaultConfig := false
  UblxCmds := []
  DevicePins := [("a", []), ("a.phaseOffsetFilter.0.b", [])]
  DpllSettings := []
  PhaseOffsetPins := [("a.phaseOffsetFilter.0.b", [("c", "SMA2")]),
    ("a", [("b.phaseOffsetFilter.0.c", "SMA1")])]

/-- Options for the devices `ens1f0` and `ens1f1`, with two DPLL settings and
phase-offset pins for both devices. -/
def twoPortOpts : E810Opts where
  EnableDefaultConfig := false
  UblxCmds := []
  DevicePins := [("ens1f0", [("SMA1", "0 1")]), ("ens1f1", [("SMA2", "0 2")])]
  DpllSettings := [("LocalMaxHoldoverOffSet", 1500), ("MaxInSpecOffset", 100)]
  PhaseOffsetPins := [("ens1f0", [("boardLabel", "GNSS-1PPS"), ("type", "input")]),
    ("ens1f1", [("boardLabel", "SMA1")])]

/-- The options `twoPortOpts` with every map visited in the reverse order. -/
def twoPortOptsReversed : E810Opts where
  EnableDefaultConfig := false
  UblxCmds := []
  DevicePins := [("ens1f1", [("SMA2", "0 2")]), ("ens1f0", [("SMA1", "0 1")])]
  DpllSettings := [("MaxInSpecOffset", 100), ("LocalMaxHoldoverOffSet", 1500)]
  PhaseOffsetPins := [("ens1f1", [("boardLabel", "SMA1")]),
    ("ens1f0", [("type", "input"), ("boardLabel", "GNSS-1PPS")])]

/-- The value the settings hold under `k` after `OnPTPConfigChangeE810`. -/
def settingAfter (fuel : Nat) (env : Env) (p : PtpProfile) (k : String) :
    Run (Option String) :=
  (OnPTPConfigChangeE810 fuel env p).bind fun out => Run.ret (settingsGet out.1.PtpSettings k)

/-- A world with the devices `ens1f0`, whose configuration space is `dsnImage`, and
`ens1f1`, whose configuration space is the 256-byte `legacyImage`; the `ptp` directory of
each holds `ptp0`. -/
def mixedEnv : Env where
  readFile := fun p =>
    if p = configPath "ens1f0" then some dsnImage
    else if p = configPath "ens1f1" then some legacyImage
    else none
  readDir := fun p =>
    if p = "/sys/class/net/ens1f0/device/ptp/" ∨ p = "/sys/class/net/ens1f1/device/ptp/" then
      some ["ptp0"]
    else none
  entropy := fun _ => 0
  combinedOutput := fun _ _ _ => ""
  ClockIdStr := "clockId"

/-- A profile with the block `pinOpts` whose settings already hold a key of the shape of
a phase-offset-filter key of `ens1f0` with another number than its identity, a clock
identity for `ens1f0` and a value for the DPLL setting. -/
def presetPhaseProfile : PtpProfile where
  Plugins := [("e810", pinOpts)]
  PtpSettings := some [("ens1f0.phaseOffsetFilter.7.boardLabel", "SMA1"),
    ("clockId[ens1f0]", "42"), ("LocalMaxHoldoverOffSet", "7")]

/-- Options like `collidingOpts`, but the name of the second device carries the number 7
where the phase-offset-filter key of `clockId[a` carries the identity 0. -/
def nearOpts : E810Opts where
  EnableDefaultConfig := false
  UblxCmds := []
  DevicePins := [("clockId[a", []), ("a.phaseOffsetFilter.7.b", [])]
  DpllSettings := []
  PhaseOffsetPins := [("clockId[a", [("b]", "GNSS-1PPS")])]

/-! ## Reading words: the code and the specification agree -/

theorem drop_cons_of_lt {α : Type} (b : List α) (o : Nat) (h : o < b.length) :
    ∃ x, b.drop o = x :: b.drop (o + 1) := by
  refine ⟨b.get ⟨o, h⟩, ?_⟩
  simp

theorem leValue_pair (x y : Byte) : leValue [x, y] = x.val + 256 * y.val := by
  simp [leValue]

theorem read16_of_le (b : List Byte) (o : Nat) (h : o + 2 ≤ b.length) :
    (sliceFrom b o).bind Uint16 = some (leValue (bytesAt b o 2)) := by
  obtain ⟨x, hx⟩ := drop_cons_of_lt b o (by omega)
  obtain ⟨y, hy⟩ := drop_cons_of_lt b (o + 1) (by omega)
  have ho : o ≤ b.length := by omega
  simp [sliceFrom, ho, bytesAt, hx, hy, Uint16, leValue]

theorem read16_of_gt (b : List Byte) (o : Nat) (h : b.length < o + 2) :
    (sliceFrom b o).bind Uint16 = none := by
  unfold sliceFrom
  split
  · rename_i ho
    have hlen : (b.drop o).length < 2 := by simp; omega
    match hd : b.drop o with
    | [] => simp [Uint16]
    | [_] => simp [Uint16]
    | _ :: _ :: _ => rw [hd] at hlen; simp at hlen; omega
  · rfl

theorem leValue_two_lt (l : List Byte) : leValue (l.take 2) < 65536 := by
  match l with
  | [] => simp [leValue]
  | [x] => simp [leValue]; omega
  | x :: y :: _ => simp [leValue]; omega

theorem read64_of_le (b : List Byte) (o : Nat) (h : o + 8 ≤ b.length) :
    (sliceFrom b o).bind Uint64 = some (leValue (bytesAt b o 8)) := by
  obtain ⟨x0, h0⟩ := drop_cons_of_lt b o (by omega)
  obtain ⟨x1, h1⟩ := drop_cons_of_lt b (o + 1) (by omega)
  obtain ⟨x2, h2⟩ := drop_cons_of_lt b (o + 2) (by omega)
  obtain ⟨x3, h3⟩ := drop_cons_of_lt b (o + 3) (by omega)
  obtain ⟨x4, h4⟩ := drop_cons_of_lt b (o + 4) (by omega)
  obtain ⟨x5, h5⟩ := drop_cons_of_lt b (o + 5) (by omega)
  obtain ⟨x6, h6⟩ := drop_cons_of_lt b (o + 6) (by omega)
  obtain ⟨x7, h7⟩ := drop_cons_of_lt b (o + 7) (by omega)
  have ho : o ≤ b.length := by omega
  simp [sliceFrom, ho, bytesAt, h0, h1, h2, h3, h4, h5, h6, h7, Uint64, leValue]
  ring

theorem read64_of_gt (b : List Byte) (o : Nat) (h : b.length < o + 8) :
    (sliceFrom b o).bind Uint64 = none := by
  unfold sliceFrom
  split
  · rename_i ho
    have hlen : (b.drop o).length < 8 := by simp; omega
    match hd : b.drop o with
    | [] => simp [Uint64]
    | [_] => simp [Uint64]
    | [_, _] => simp [Uint64]
    | [_, _, _] => simp [Uint64]
    | [_, _, _, _] => simp [Uint64]
    | [_, _, _, _, _] => simp [Uint64]
    | [_, _, _, _, _, _] => simp [Uint64]
    | [_, _, _, _, _, _, _] => simp [Uint64]
    | _ :: _ :: _ :: _ :: _ :: _ :: _ :: _ :: _ => rw [hd] at hlen; simp at hlen; omega
  · rfl

/-! ## The walk follows the chain -/

theorem wordAt_eq_some {b : List Byte} {o v : Nat} (h : wordAt b o = some v) :
    o + 2 ≤ b.length ∧ v = leValue (bytesAt b o 2) ∧ v < 65536 := by
  unfold wordAt at h
  split at h
  · rename_i hle
    simp only [Option.some.injEq] at h
    exact ⟨hle, h.symm, h ▸ leValue_two_lt _⟩
  · simp at h

theorem read16_of_wordAt {b : List Byte} {o v : Nat} (h : wordAt b o = some v) :
    (sliceFrom b o).bind Uint16 = some v := by
  obtain ⟨hle, hv, _⟩ := wordAt_eq_some h
  rw [read16_of_le b o hle, hv]

theorem chainNext_eq_some {b : List Byte} {o o1 : Nat} (h : chainNext b o = some o1) :
    ∃ id w, wordAt b o = some id ∧ wordAt b (o + 2) = some w ∧ id ≠ 0 ∧ id ≠ 3 ∧
      o1 = w / 16 := by
  unfold chainNext at h
  split at h
  · rename_i id w hid hw
    split at h
    · rename_i hne
      simp only [Option.some.injEq] at h
      exact ⟨id, w, hid, hw, hne.1, hne.2, h.symm⟩
    · simp at h
  · simp at h

/-- One iteration of the loop at a record that is a link of the chain. -/
theorem capWalk_link {b : List Byte} {o o1 : Nat} (ho : o < 65532)
    (h : chainNext b o = some o1) (fuel : Nat) :
    capWalk b (fuel + 1) o = capWalk b fuel o1 ∧ o1 < 4096 := by
  obtain ⟨id, w, hid, hw, h0, h3, ho1⟩ := chainNext_eq_some h
  have hw2 := (wordAt_eq_some hw).2.2
  have hmod : (o + PCI_EXT_CAP_NEXT_OFFSET) % 65536 = o + 2 := by
    simp only [PCI_EXT_CAP_NEXT_OFFSET]; omega
  have hsh : w >>> PCI_EXT_CAP_OFFSET_SHIFT = w / 16 := by
    simp [PCI_EXT_CAP_OFFSET_SHIFT, Nat.shiftRight_eq_div_pow]
  refine ⟨?_, by omega⟩
  rw [capWalk, read16_of_wordAt hid]
  simp only [PCI_EXT_CAP_ID_DSN, ne_eq, h3, not_false_eq_true, if_true, h0, if_false]
  rw [hmod, read16_of_wordAt hw]
  simp only [hsh, ho1]

/-- The loop spends one iteration per link of the chain. -/
theorem capWalk_chain (b : List Byte) (n : Nat) :
    ∀ o k, o < 65532 → chainFrom b o n = some k →
      ∀ fuel, capWalk b (n + fuel) o = capWalk b fuel k ∧ k < 65532 := by
  induction n with
  | zero =>
    intro o k ho h fuel
    simp only [chainFrom, Option.some.injEq] at h
    subst h
    simp [ho]
  | succ n ih =>
    intro o k ho h fuel
    simp only [chainFrom] at h
    cases hn : chainNext b o with
    | none => simp [hn] at h
    | some o1 =>
      simp only [hn, Option.some_bind] at h
      obtain ⟨hstep, hlt⟩ := capWalk_link ho hn (n + fuel)
      have := ih o1 k (by omega) h fuel
      refine ⟨?_, this.2⟩
      rw [show n + 1 + fuel = n + fuel + 1 by omega, hstep, this.1]

/-- The iteration at a record whose capability id is 3. -/
theorem capWalk_dsn {b : List Byte} {k : Nat} (h : wordAt b k = some 3) (fuel : Nat) :
    capWalk b (fuel + 1) k = Run.ret (LoopExit.broke k) := by
  rw [capWalk, read16_of_wordAt h]
  simp [PCI_EXT_CAP_ID_DSN]

/-- The iteration at a record whose capability id is 0. -/
theorem capWalk_zero {b : List Byte} {k : Nat} (h : wordAt b k = some 0) (fuel : Nat) :
    capWalk b (fuel + 1) k = Run.ret (LoopExit.returned 0) := by
  rw [capWalk, read16_of_wordAt h]
  simp [PCI_EXT_CAP_ID_DSN]

/-! ## C1: the Device Serial Number is returned -/

/-- C1. When the extended-capability chain of the configuration-space image `b` of a
device, followed from offset 256 through records whose capability id is neither 0 nor 3,
reaches after `n` links a record at offset `k` whose capability id is 3, and the eight
bytes at `k + 4 .. k + 11` lie inside the image, `getClockIdE810` returns (as soon as it
is allowed more than `n` iterations) exactly the little-endian value of those bytes. -/
theorem getClockIdE810_returns_dsn (readFile : String → Option (List Byte))
    (device : String) (b : List Byte) (n k : Nat)
    (hfile : readFile (configPath device) = some b)
    (hchain : chainFrom b 256 n = some k)
    (hid : wordAt b k = some 3)
    (hdata : k + 12 ≤ b.length) :
    ∀ fuel, n < fuel →
      getClockIdE810 fuel readFile device = Run.ret (leValue (bytesAt b (k + 4) 8)) := by
  intro fuel hfuel
  obtain ⟨m, rfl⟩ : ∃ m, fuel = n + (m + 1) := ⟨fuel - n - 1, by omega⟩
  obtain ⟨hwalk, hk⟩ := capWalk_chain b n 256 k (by omega) hchain (m + 1)
  have hmod : (k + PCI_EXT_CAP_DATA_OFFSET) % 65536 = k + 4 := by
    simp only [PCI_EXT_CAP_DATA_OFFSET]; omega
  simp only [getClockIdE810, hfile, clockIdOfImage, PCI_CFG_SPACE_SIZE, hwalk,
    capWalk_dsn hid m, hmod, read64_of_le b (k + 4) (by omega)]

theorem getClockIdE810_returns_dsn_witness :
    oneFile (configPath "ens1f0") dsnImage (configPath "ens1f0") = some dsnImage ∧
    chainFrom dsnImage 256 1 = some 272 ∧ wordAt dsnImage 272 = some 3 ∧
    getClockIdE810 2 (oneFile (configPath "ens1f0") dsnImage) "ens1f0"
      = Run.ret 0x8877665544332211 := by
  have h1 : oneFile (configPath "ens1f0") dsnImage (configPath "ens1f0") = some dsnImage := by
    simp [oneFile]
  have h2 : chainFrom dsnImage 256 1 = some 272 := by decide
  have h3 : wordAt dsnImage 272 = some 3 := by decide
  refine ⟨h1, h2, h3, ?_⟩
  have := getClockIdE810_returns_dsn _ "ens1f0" dsnImage 1 272 h1 h2 h3 (by decide) 2 (by omega)
  rw [this]
  decide

/-! ## More iterations do not change a result -/

theorem capWalk_mono (b : List Byte) :
    ∀ fuel o, capWalk b fuel o ≠ Run.running →
      ∀ m, capWalk b (fuel + m) o = capWalk b fuel o := by
  intro fuel
  induction fuel with
  | zero => intro o h; simp [capWalk] at h
  | succ fuel ih =>
    intro o h m
    rw [show fuel + 1 + m = fuel + m + 1 by omega]
    rw [capWalk] at h ⊢
    rw [capWalk]
    revert h
    cases (sliceFrom b o).bind Uint16 with
    | none => intro _; rfl
    | some id =>
      by_cases h3 : id ≠ PCI_EXT_CAP_ID_DSN
      · by_cases h0 : id = 0
        · simp [h3, h0]
        · simp only [if_pos h3, if_neg h0]
          cases (sliceFrom b ((o + PCI_EXT_CAP_NEXT_OFFSET) % 65536)).bind Uint16 with
          | none => intro _; rfl
          | some w => intro h; exact ih _ h m
      · simp [h3]

theorem clockIdOfImage_mono (b : List Byte) (fuel : Nat)
    (h : clockIdOfImage fuel b ≠ Run.running) (m : Nat) :
    clockIdOfImage (fuel + m) b = clockIdOfImage fuel b := by
  have hw : capWalk b fuel PCI_CFG_SPACE_SIZE ≠ Run.running := by
    intro hr
    apply h
    simp [clockIdOfImage, hr]
  simp only [clockIdOfImage, capWalk_mono b fuel _ hw m]

theorem getClockIdE810_oneFile (fuel : Nat) (device : String) (b : List Byte) :
    getClockIdE810 fuel (oneFile (configPath device) b) device = clockIdOfImage fuel b := by
  simp [getClockIdE810, oneFile]

/-! ## C2: a next pointer of zero -/

/-- C2. `getClockIdE810` does not return 0 at a next pointer of zero. In `strayImage`
the record at 256 (capability id 1, so no record with id 3 has been found) has a next
pointer of zero; the walk goes on at offset 0, takes the vendor and device id of the
legacy header for a capability record, and returns the eight bytes at 349 .. 356. In
`wanderImage`, whose record at 256 is the same, the device id sends the walk from offset
0 back to 256, and the loop never ends. -/
theorem getClockIdE810_next_zero_goes_on :
    chainFrom strayImage 256 0 = some 256 ∧
    wordAt strayImage 256 = some 1 ∧
    wordAt strayImage (256 + 2) = some 1 ∧ 1 / 16 = 0 ∧
    (∀ fuel, 3 ≤ fuel →
      getClockIdE810 fuel (oneFile (configPath "ens1f0") strayImage) "ens1f0"
        = Run.ret 0x0807060504030201) ∧
    Run.ret 0x0807060504030201 ≠ Run.ret 0 ∧
    wordAt wanderImage 256 = some 1 ∧ wordAt wanderImage (256 + 2) = some 1 ∧
    (∀ fuel, getClockIdE810 fuel (oneFile (configPath "ens1f0") wanderImage) "ens1f0"
      = Run.running) := by
  refine ⟨by decide, by decide, by decide, by decide, ?_, by decide, by decide, by decide, ?_⟩
  · intro fuel hfuel
    obtain ⟨m, rfl⟩ : ∃ m, fuel = 3 + m := ⟨fuel - 3, by omega⟩
    have h3 : clockIdOfImage 3 strayImage = Run.ret 0x0807060504030201 := by decide
    rw [getClockIdE810_oneFile, clockIdOfImage_mono strayImage 3 (by rw [h3]; decide) m, h3]
  · have hdown : chainNext wanderImage 256 = some 0 := by decide
    have hup : chainNext wanderImage 0 = some 256 := by decide
    have hwalk : ∀ fuel, capWalk wanderImage fuel 256 = Run.running ∧
        capWalk wanderImage fuel 0 = Run.running := by
      intro fuel
      induction fuel with
      | zero => exact ⟨rfl, rfl⟩
      | succ fuel ih =>
        exact ⟨by rw [(capWalk_link (by omega) hdown fuel).1, ih.2],
          by rw [(capWalk_link (by omega) hup fuel).1, ih.1]⟩
    intro fuel
    rw [getClockIdE810_oneFile]
    simp only [clockIdOfImage, PCI_CFG_SPACE_SIZE, (hwalk fuel).1]

/-- The guard of the loop. When the extended-capability chain of the configuration-space
image `b` of a device, followed from offset 256 through records whose capability id is
neither 0 nor 3, reaches after `n` links a record at offset `k` whose capability id is 0,
then `getClockIdE810` returns the sentinel 0 (as soon as it is allowed more than `n`
iterations). -/
theorem getClockIdE810_returns_zero (readFile : String → Option (List Byte))
    (device : String) (b : List Byte) (n k : Nat)
    (hfile : readFile (configPath device) = some b)
    (hchain : chainFrom b 256 n = some k)
    (hid : wordAt b k = some 0) :
    ∀ fuel, n < fuel → getClockIdE810 fuel readFile device = Run.ret 0 := by
  intro fuel hfuel
  obtain ⟨m, rfl⟩ : ∃ m, fuel = n + (m + 1) := ⟨fuel - n - 1, by omega⟩
  obtain ⟨hwalk, _⟩ := capWalk_chain b n 256 k (by omega) hchain (m + 1)
  simp only [getClockIdE810, hfile, clockIdOfImage, PCI_CFG_SPACE_SIZE, hwalk,
    capWalk_zero hid m]

theorem getClockIdE810_returns_zero_example :
    oneFile (configPath "ens1f0") endImage (configPath "ens1f0") = some endImage ∧
    chainFrom endImage 256 1 = some 0 ∧ wordAt endImage 0 = some 0 ∧
    getClockIdE810 2 (oneFile (configPath "ens1f0") endImage) "ens1f0" = Run.ret 0 := by
  have h1 : oneFile (configPath "ens1f0") endImage (configPath "ens1f0") = some endImage := by
    simp [oneFile]
  have h2 : chainFrom endImage 256 1 = some 0 := by decide
  have h3 : wordAt endImage 0 = some 0 := by decide
  exact ⟨h1, h2, h3, getClockIdE810_returns_zero _ "ens1f0" endImage 1 0 h1 h2 h3 2 (by omega)⟩

/-! ## C3: reads past the end of the image -/

/-- C3. `getClockIdE810` on an image that ends before a byte it reads does not return the
sentinel 0: whatever number of iterations it is allowed, it stops in a run-time panic on
the 256-byte `legacyImage` (the capability id at 256 is past the end), on `danglingImage`
(the next pointer 512 is past the end) and on `truncatedDsnImage` (the serial number at
260 .. 267 is past the end). -/
theorem getClockIdE810_out_of_bounds_crashes :
    (∀ fuel, getClockIdE810 (fuel + 1) (oneFile (configPath "ens1f0") legacyImage) "ens1f0"
      = Run.crash) ∧
    (∀ fuel, getClockIdE810 (fuel + 2) (oneFile (configPath "ens1f0") danglingImage) "ens1f0"
      = Run.crash) ∧
    (∀ fuel, getClockIdE810 (fuel + 1) (oneFile (configPath "ens1f0") truncatedDsnImage)
      "ens1f0" = Run.crash) := by
  have h1 : clockIdOfImage 1 legacyImage = Run.crash := by decide
  have h2 : clockIdOfImage 2 danglingImage = Run.crash := by decide
  have h3 : clockIdOfImage 1 truncatedDsnImage = Run.crash := by decide
  refine ⟨fun fuel => ?_, fun fuel => ?_, fun fuel => ?_⟩
  · rw [getClockIdE810_oneFile, Nat.add_comm,
      clockIdOfImage_mono legacyImage 1 (by rw [h1]; decide) fuel, h1]
  · rw [getClockIdE810_oneFile, Nat.add_comm,
      clockIdOfImage_mono danglingImage 2 (by rw [h2]; decide) fuel, h2]
  · rw [getClockIdE810_oneFile, Nat.add_comm,
      clockIdOfImage_mono truncatedDsnImage 1 (by rw [h3]; decide) fuel, h3]

/-! ## C10: a cycle in the chain -/

/-- C10. On `cycleImage`, whose record at 256 has capability id 1 and the next pointer
256, the loop of `getClockIdE810` never ends: whatever number of iterations it is
allowed, it is still running when they are used up. -/
theorem getClockIdE810_cycle_never_returns :
    ∀ fuel, getClockIdE810 fuel (oneFile (configPath "ens1f0") cycleImage) "ens1f0"
      = Run.running := by
  have hlink : chainNext cycleImage 256 = some 256 := by decide
  have hwalk : ∀ fuel, capWalk cycleImage fuel 256 = Run.running := by
    intro fuel
    induction fuel with
    | zero => rfl
    | succ fuel ih => rw [(capWalk_link (by omega) hlink fuel).1, ih]
  intro fuel
  rw [getClockIdE810_oneFile]
  simp only [clockIdOfImage, PCI_CFG_SPACE_SIZE, hwalk fuel]


/-! ## Maps, states and loops -/

theorem GoMap.get_erase_ne {α : Type} (m : GoMap α) (k x : String) (h : x ≠ k) :
    GoMap.get (m.erase k) x = GoMap.get m x := by
  induction m with
  | nil => rfl
  | cons e m ih =>
    obtain ⟨k1, v1⟩ := e
    by_cases hk : k1 = k
    · subst hk
      simp [GoMap.erase, GoMap.get, h, ih]
    · simp [GoMap.erase, GoMap.get, hk, ih]

theorem GoMap.get_set {α : Type} (m : GoMap α) (k x : String) (v : α) :
    (m.set k v).get x = if x = k then some v else m.get x := by
  by_cases h : x = k
  · simp [GoMap.set, GoMap.get, h]
  · simp [GoMap.set, GoMap.get, h, GoMap.get_erase_ne m k x h]

theorem ConfigState.get_eq (st : ConfigState) (k : String) :
    st.get k = settingsGet st.PtpSettings k := rfl

theorem ConfigState.get_of_set (st : ConfigState) (k x v : String) :
    (st.set k v).get x = if x = k then some v else st.get x := by
  unfold ConfigState.set ConfigState.get
  cases st.PtpSettings with
  | none => simp [GoMap.get_set, GoMap.get]
  | some m => simp [GoMap.get_set]

theorem Run.bind_ret {α β : Type} (a : α) (f : α → Run β) : (Run.ret a).bind f = f a := rfl

/-- A loop whose body returns and keeps an invariant returns and keeps it. -/
theorem forRange_inv {α σ : Type} (I : σ → Prop) (body : σ → α → Run σ) (l : List α)
    (h : ∀ s, I s → ∀ a ∈ l, ∃ s1, body s a = Run.ret s1 ∧ I s1) :
    ∀ s, I s → ∃ s1, forRange body l s = Run.ret s1 ∧ I s1 := by
  induction l with
  | nil => intro s hs; exact ⟨s, rfl, hs⟩
  | cons a l ih =>
    intro s hs
    obtain ⟨s1, h1, hI1⟩ := h s hs a (List.mem_cons_self a l)
    obtain ⟨s2, h2, hI2⟩ :=
      ih (fun s hs a ha => h s hs a (List.mem_cons_of_mem _ ha)) s1 hI1
    exact ⟨s2, by simp [forRange, h1, Run.bind_ret, h2], hI2⟩

/-! ## The frame of `OnPTPConfigChangeE810` -/

theorem Keeps.set_written {g : String → Option String} {W : String → Prop}
    {st : ConfigState} (h : Keeps g W st) (k v : String) (hk : W k) :
    Keeps g W (st.set k v) := by
  intro x y hx
  obtain ⟨h1, h2⟩ := h x y hx
  rw [ConfigState.get_of_set]
  by_cases hxk : x = k
  · subst hxk; simp [hk]
  · simp [hxk, h1, h2]

theorem Keeps.set_absent {g : String → Option String} {W : String → Prop}
    {st : ConfigState} (h : Keeps g W st) (k v : String) (hk : st.get k = none) :
    Keeps g W (st.set k v) := by
  intro x y hx
  obtain ⟨h1, h2⟩ := h x y hx
  rw [ConfigState.get_of_set]
  by_cases hxk : x = k
  · subst hxk; simp [hk] at h1
  · simp [hxk, h1, h2]

theorem Keeps.of_get_eq {g : String → Option String} {W : String → Prop}
    {st st1 : ConfigState} (h : Keeps g W st) (hg : ∀ k, st1.get k = st.get k) :
    Keeps g W st1 := by
  intro x y hx
  simpa [hg] using h x y hx

theorem deviceBody_keeps {g : String → Option String} {W : String → Prop} (fuel : Nat)
    (env : Env) (st : ConfigState) (e : String × GoMap String) (h : Keeps g W st)
    (hW : W (dpllClockIdStr env e.1))
    (hres : ∃ id, getClockIdE810 fuel env.readFile e.1 = Run.ret id) :
    ∃ st1, deviceBody fuel env st e = Run.ret st1 ∧ Keeps g W st1 := by
  obtain ⟨id, hid⟩ := hres
  unfold deviceBody
  by_cases hu : (st.get "unitTest").isSome
  · simp only [hu, if_true, Run.bind_ret]
    exact ⟨_, rfl, (h.set_written _ _ hW).of_get_eq fun _ => rfl⟩
  · simp only [hu, hid, Run.bind_ret]
    exact ⟨_, rfl, (h.set_written _ _ hW).of_get_eq fun _ => rfl⟩

theorem dpllBody_keeps {g : String → Option String} {W : String → Prop}
    (st : ConfigState) (e : String × Nat) (h : Keeps g W st) :
    ∃ st1, dpllBody st e = Run.ret st1 ∧ Keeps g W st1 := by
  unfold dpllBody
  by_cases hn : (st.get e.1).isNone
  · simp only [hn, if_true]
    exact ⟨_, rfl, h.set_absent _ _ (by simpa using hn)⟩
  · simp only [hn]
    exact ⟨_, rfl, h⟩

theorem phaseKey_eq (iface id pinProperty : String) :
    phaseKey iface id pinProperty = iface ++ ".phaseOffsetFilter." ++ id ++ "." ++ pinProperty := by
  apply String.ext
  simp [phaseKey, String.intercalate, String.intercalate.go]

theorem ifaceFound_mem {iface : String} {devicePins : GoMap (GoMap String)}
    (h : ifaceFound iface devicePins = true) : iface ∈ devicePins.keys := by
  simp only [ifaceFound, List.any_eq_true, decide_eq_true_eq] at h
  obtain ⟨e, he, rfl⟩ := h
  exact List.mem_map_of_mem _ he


theorem resolved_eq {fuel : Nat} {env : Env} {device : String} {id : Nat}
    (h : getClockIdE810 fuel env.readFile device = Run.ret id) :
    resolved fuel env device = id := by
  simp only [resolved, h]

/-- The loop over the phase-offset pins returns and keeps an invariant that the
assignments of the visited entries keep. -/
theorem phaseLoop_inv (I : ConfigState → Prop) (fuel : Nat) (env : Env)
    (devicePins : GoMap (GoMap String))
    (hres : ∀ d ∈ devicePins.keys, ∃ id, getClockIdE810 fuel env.readFile d = Run.ret id)
    (l : GoMap (GoMap String))
    (hI : ∀ io ∈ List.takeWhile (fun io => ifaceFound io.1 devicePins) l, ∀ pe ∈ io.2,
      ∀ s : ConfigState, I s → I (s.set
        (io.1 ++ ".phaseOffsetFilter." ++ FormatUint (resolved fuel env io.1) ++ "." ++ pe.1)
        pe.2)) :
    ∀ st, I st → ∃ st1, phaseLoop fuel env devicePins l st = Run.ret st1 ∧ I st1 := by
  induction l with
  | nil => intro st h; exact ⟨st, rfl, h⟩
  | cons io l ih =>
    intro st h
    obtain ⟨iface, properties⟩ := io
    unfold phaseLoop
    by_cases hf : ifaceFound iface devicePins = true
    · simp only [hf, if_true]
      have htake : List.takeWhile (fun io => ifaceFound io.1 devicePins)
          ((iface, properties) :: l)
          = (iface, properties) :: List.takeWhile (fun io => ifaceFound io.1 devicePins) l := by
        simp [List.takeWhile, hf]
      rw [htake] at hI
      obtain ⟨id, hid⟩ := hres iface (ifaceFound_mem hf)
      obtain ⟨st1, h1, hk1⟩ := forRange_inv I (propertyBody fuel env iface)
        properties (fun s hs pe hpe => by
          unfold propertyBody
          simp only [hid, Run.bind_ret]
          refine ⟨_, rfl, ?_⟩
          rw [phaseKey_eq]
          have := hI (iface, properties) (List.mem_cons_self _ _) pe hpe s hs
          rw [resolved_eq hid] at this
          exact this) st h
      obtain ⟨st2, h2, hk2⟩ :=
        ih (fun io hio => hI io (List.mem_cons_of_mem _ hio)) st1 hk1
      exact ⟨st2, by simp [h1, Run.bind_ret, h2], hk2⟩
    · simp only [hf]
      exact ⟨st, rfl, h⟩

theorem get_makeSettings_enableDefaultConfig (opts : E810Opts) (st : ConfigState)
    (k : String) : (makeSettings (enableDefaultConfig opts st)).get k = st.get k := by
  have h1 : (enableDefaultConfig opts st).PtpSettings = st.PtpSettings := by
    unfold enableDefaultConfig; split <;> rfl
  unfold makeSettings ConfigState.get
  cases hs : (enableDefaultConfig opts st).PtpSettings with
  | none => simp [← h1, hs, GoMap.get]
  | some m => simp [← h1, hs]

theorem configE810_keeps {g : String → Option String} {W : String → Prop} (fuel : Nat)
    (env : Env) (opts : E810Opts)
    (hres : ∀ d ∈ opts.DevicePins.keys, ∃ id, getClockIdE810 fuel env.readFile d = Run.ret id)
    (hWc : ∀ d ∈ opts.DevicePins.keys, W (dpllClockIdStr env d))
    (hWp : ∀ io ∈ phaseVisited opts, ∀ pe ∈ io.2,
      W (io.1 ++ ".phaseOffsetFilter." ++ FormatUint (resolved fuel env io.1) ++ "." ++ pe.1))
    (st : ConfigState) (h : Keeps g W st) :
    ∃ st1, configE810 fuel env opts st = Run.ret st1 ∧ Keeps g W st1 := by
  unfold configE810
  have h2 : Keeps g W (makeSettings (enableDefaultConfig opts st)) :=
    h.of_get_eq (get_makeSettings_enableDefaultConfig opts st)
  generalize makeSettings (enableDefaultConfig opts st) = sb at h2
  obtain ⟨s3, e3, k3⟩ := forRange_inv (Keeps g W) (deviceBody fuel env) opts.DevicePins
    (fun s hs e he => deviceBody_keeps fuel env s e hs
      (hWc e.1 (List.mem_map_of_mem _ he)) (hres e.1 (List.mem_map_of_mem _ he))) sb h2
  obtain ⟨s4, e4, k4⟩ := forRange_inv (Keeps g W) dpllBody opts.DpllSettings
    (fun s hs e _ => dpllBody_keeps s e hs) s3 k3
  obtain ⟨s5, e5, k5⟩ := phaseLoop_inv (Keeps g W) fuel env opts.DevicePins hres
    opts.PhaseOffsetPins (fun io hio pe hpe s hs => hs.set_written _ _ (hWp io hio pe hpe))
    s4 k4
  exact ⟨s5, by simp [e3, e4, e5, Run.bind_ret], k5⟩

/-! ## C4: which keys of the settings are kept -/

/-- C4, as stated, fails. The settings of `presetProfile` hold the clock-identity key
`clockId[ens1f0]` with the value `42`; after `OnPTPConfigChangeE810` (the configuration
space of `ens1f0` cannot be read, so its identity is 0) the key maps to `0`. -/
theorem OnPTPConfigChangeE810_overwrites_clock_id :
    settingsGet presetProfile.PtpSettings "clockId[ens1f0]" = some "42" ∧
    (OnPTPConfigChangeE810 1 bareEnv presetProfile).bind
      (fun out => Run.ret (settingsGet out.1.PtpSettings "clockId[ens1f0]"))
      = Run.ret (some "0") := by
  constructor <;> decide

/-- C4, amended. When `getClockIdE810` returns for the devices listed in the pins,
`OnPTPConfigChangeE810` returns and removes no key from the profile's PtpSettings; a key
that was present keeps its value unless it is the clock-identity key of a listed device
or a phase-offset-filter key the call assigns (`<iface>.phaseOffsetFilter.<clockId>.`
`<property>` for a phase-offset pin the loop visits, with the identity `getClockIdE810`
returns for the interface); those keys are assigned unconditionally. In particular a
DPLL setting never replaces a value that is present. -/
theorem OnPTPConfigChangeE810_keeps_settings (fuel : Nat) (env : Env) (p : PtpProfile)
    (hres : Resolves fuel env p) :
    ∃ out, OnPTPConfigChangeE810 fuel env p = Run.ret out ∧
      out.1.Plugins = p.Plugins ∧
      ∀ k v, settingsGet p.PtpSettings k = some v →
        (settingsGet out.1.PtpSettings k).isSome ∧
        (settingsGet out.1.PtpSettings k = some v ∨ ClockIdKey env p k ∨
          PhaseFilterKey fuel env p k) := by
  obtain ⟨st, hst, hk⟩ := forRange_inv
    (Keeps (settingsGet p.PtpSettings) (fun k => ClockIdKey env p k ∨ PhaseFilterKey fuel env p k))
    (pluginBody fuel env) p.Plugins
    (fun s hs e he => by
      unfold pluginBody
      by_cases hn : e.1 = "e810"
      · simp only [hn, if_true]
        exact configE810_keeps fuel env e.2 (hres e he hn)
          (fun d hd => Or.inl ⟨e, he, hn, d, hd, rfl⟩)
          (fun io hio pe hpe => Or.inr ⟨e, he, hn, io, hio, pe, hpe, rfl⟩) s hs
      · simp only [hn]
        exact ⟨s, rfl, hs⟩)
    { PtpSettings := p.PtpSettings, effects := [], draws := 0 }
    (fun k v h => by simp [ConfigState.get_eq, h])
  refine ⟨({ p with PtpSettings := st.PtpSettings }, st.effects),
    by simp only [OnPTPConfigChangeE810, hst, Run.bind_ret], rfl, ?_⟩
  intro k v h
  exact hk k v h

theorem OnPTPConfigChangeE810_keeps_settings_witness :
    Resolves 2 dsnEnv presetPhaseProfile ∧
    ∃ out, OnPTPConfigChangeE810 2 dsnEnv presetPhaseProfile = Run.ret out ∧
      settingsGet out.1.PtpSettings "ens1f0.phaseOffsetFilter.7.boardLabel" = some "SMA1" ∧
      settingsGet out.1.PtpSettings "LocalMaxHoldoverOffSet" = some "7" ∧
      (settingsGet out.1.PtpSettings "clockId[ens1f0]").isSome := by
  have hid : getClockIdE810 2 dsnEnv.readFile "ens1f0" = Run.ret 0x8877665544332211 := by
    show getClockIdE810 2 (oneFile (configPath "ens1f0") dsnImage) "ens1f0" = _
    rw [getClockIdE810_oneFile]; decide
  have hres : Resolves 2 dsnEnv presetPhaseProfile := by
    intro e he _ d hd
    have he1 : e = ("e810", pinOpts) := by simpa [presetPhaseProfile] using he
    subst he1
    have hd1 : d = "ens1f0" := by simpa [pinOpts, GoMap.keys] using hd
    subst hd1
    exact ⟨_, hid⟩
  have hno : ∀ k, k = "ens1f0.phaseOffsetFilter.7.boardLabel" ∨ k = "LocalMaxHoldoverOffSet" →
      ¬ (ClockIdKey dsnEnv presetPhaseProfile k ∨ PhaseFilterKey 2 dsnEnv presetPhaseProfile k) := by
    intro k hk
    rintro (⟨e, he, _, d, hd, h⟩ | ⟨e, he, _, io, hio, pe, hpe, h⟩)
    · have he1 : e = ("e810", pinOpts) := by simpa [presetPhaseProfile] using he
      subst he1
      have hd1 : d = "ens1f0" := by simpa [pinOpts, GoMap.keys] using hd
      subst hd1
      rcases hk with rfl | rfl <;> revert h <;> decide
    · have he1 : e = ("e810", pinOpts) := by simpa [presetPhaseProfile] using he
      subst he1
      have hv : phaseVisited pinOpts = [("ens1f0", [("boardLabel", "GNSS-1PPS")])] := by decide
      rw [hv] at hio
      have hio1 : io = ("ens1f0", [("boardLabel", "GNSS-1PPS")]) := by simpa using hio
      subst hio1
      have hpe1 : pe = ("boardLabel", "GNSS-1PPS") := by simpa using hpe
      subst hpe1
      rw [resolved_eq hid] at h
      rcases hk with rfl | rfl <;> revert h <;> decide
  obtain ⟨out, hout, _, hkeep⟩ :=
    OnPTPConfigChangeE810_keeps_settings 2 dsnEnv presetPhaseProfile hres
  refine ⟨hres, out, hout, ?_, ?_, ?_⟩
  · rcases (hkeep "ens1f0.phaseOffsetFilter.7.boardLabel" "SMA1" (by decide)).2 with h | h
    · exact h
    · exact absurd h (hno _ (Or.inl rfl))
  · rcases (hkeep "LocalMaxHoldoverOffSet" "7" (by decide)).2 with h | h
    · exact h
    · exact absurd h (hno _ (Or.inr rfl))
  · exact (hkeep "clockId[ens1f0]" "42" (by decide)).1

/-! ## Strings -/

theorem startsWith_SDP (pin : String) :
    startsWith pin "SDP" = true ↔ pin.toList.take 3 = ['S', 'D', 'P'] := by
  have h : "SDP".toList = ['S', 'D', 'P'] := rfl
  unfold startsWith
  rw [h]
  match pin.toList with
  | [] => simp [List.isPrefixOf]
  | [a] => simp [List.isPrefixOf]
  | [a, b] => simp [List.isPrefixOf]
  | a :: b :: c :: r => simp [List.isPrefixOf]; aesop

theorem pinPath_eq_expected (device phc pin : String) :
    pinPath device phc pin = expectedPinPath device phc pin := by
  unfold pinPath expectedPinPath
  by_cases h : startsWith pin "SDP" = true
  · rw [if_pos h, if_pos ((startsWith_SDP pin).1 h)]
  · rw [if_neg h, if_neg (fun h1 => h ((startsWith_SDP pin).2 h1))]

theorem pins_path_ne_period (a b : String) : a ++ "/pins/" ++ b ≠ a ++ "/period" := by
  intro h
  have := congrArg String.data h
  simp at this

theorem dpllClockIdStr_injective (env : Env) (d1 d2 : String)
    (h : dpllClockIdStr env d1 = dpllClockIdStr env d2) : d1 = d2 := by
  have := congrArg String.data h
  simp [dpllClockIdStr] at this
  exact String.ext this

theorem dpllClockIdStr_ne_unitTest (env : Env) (d : String) :
    dpllClockIdStr env d ≠ "unitTest" := by
  intro h
  have := congrArg (fun s => s.data.reverse.head?) h
  simp [dpllClockIdStr] at this

/-! ## The loops of `OnPTPConfigChangeE810`, one by one -/

theorem Run.bind_pure {α : Type} (r : Run α) : (r.bind fun a => Run.ret a) = r := by
  cases r <;> rfl

theorem forRange_pluginBody_skip (fuel : Nat) (env : Env) (l : GoMap E810Opts)
    (h : "e810" ∉ l.keys) (st : ConfigState) :
    forRange (pluginBody fuel env) l st = Run.ret st := by
  induction l with
  | nil => rfl
  | cons e l ih =>
    simp only [GoMap.keys, List.map_cons, List.mem_cons, not_or] at h
    have h1 : ¬ e.1 = "e810" := fun hh => h.1 hh.symm
    simp only [forRange, pluginBody, h1, if_false, Run.bind_ret]
    exact ih h.2

/-- The loop over the plugins of a profile runs the body once, for the block `e810`. -/
theorem forRange_pluginBody_unique (fuel : Nat) (env : Env) (opts : E810Opts)
    (l : GoMap E810Opts) (hnodup : l.keys.Nodup) (hmem : ("e810", opts) ∈ l)
    (st : ConfigState) :
    forRange (pluginBody fuel env) l st = configE810 fuel env opts st := by
  induction l with
  | nil => simp at hmem
  | cons e l ih =>
    simp only [GoMap.keys, List.map_cons, List.nodup_cons] at hnodup
    by_cases he : e = ("e810", opts)
    · subst he
      have hskip : ∀ s, forRange (pluginBody fuel env) l s = Run.ret s :=
        fun s => forRange_pluginBody_skip fuel env l hnodup.1 s
      simp only [forRange, pluginBody, if_true]
      rw [show (fun s1 => forRange (pluginBody fuel env) l s1) = fun s1 => Run.ret s1 from
        funext hskip]
      exact Run.bind_pure _
    · have hl : ("e810", opts) ∈ l := by
        rcases List.mem_cons.1 hmem with h | h
        · exact absurd h.symm he
        · exact h
      have h1 : ¬ e.1 = "e810" := by
        intro hh
        apply hnodup.1
        rw [hh]
        exact List.mem_map_of_mem Prod.fst hl
      simp only [forRange, pluginBody, h1, if_false, Run.bind_ret]
      exact ih hnodup.2 hl

theorem writePin_eq (device pin value : String) (phcs : List String) (fx : List Effect) :
    writePin device pin value phcs fx
      = fx ++ phcs.map fun phc => Effect.writeFile (expectedPinPath device phc pin) value := by
  unfold writePin
  simp only [pinPath_eq_expected]
  induction phcs generalizing fx with
  | nil => simp
  | cons phc phcs ih =>
    simp only [List.foldl_cons, List.map_cons]
    rw [ih]
    simp

theorem phcsOf_eq (env : Env) (device : String) :
    phcsOf env device = (env.readDir (deviceDir device)).getD [] := rfl

theorem writePins_eq (env : Env) (device : String) (pins : GoMap String)
    (fx : List Effect) :
    writePins env device pins fx
      = fx ++ pins.flatMap fun pv =>
          (phcsOf env device).map fun phc =>
            Effect.writeFile (expectedPinPath device phc pv.1) pv.2 := by
  unfold writePins
  rw [phcsOf_eq]
  cases env.readDir (deviceDir device) with
  | none =>
    simp only [Option.getD_none, List.map_nil]
    induction pins generalizing fx with
    | nil => simp
    | cons pv pins ih => simp only [List.foldl_cons, List.flatMap_cons, List.nil_append, ih]
  | some phcs =>
    simp only [Option.getD_some, writePin_eq]
    induction pins generalizing fx with
    | nil => simp
    | cons pv pins ih =>
      simp only [List.foldl_cons, List.flatMap_cons]
      rw [ih]
      simp


/-- One iteration of the loop over the devices. -/
theorem deviceBody_spec (fuel : Nat) (env : Env) (st : ConfigState)
    (e : String × GoMap String) (id : Nat)
    (hid : getClockIdE810 fuel env.readFile e.1 = Run.ret id) :
    ∃ st1, deviceBody fuel env st e = Run.ret st1 ∧
      st1.effects = st.effects ++ (e.2.flatMap fun pv =>
        (phcsOf env e.1).map fun phc =>
          Effect.writeFile (expectedPinPath e.1 phc pv.1) pv.2) ∧
      (st.get "unitTest" = none → ∀ k, st1.get k =
        if k = dpllClockIdStr env e.1 then some (FormatUint id) else st.get k) := by
  unfold deviceBody
  by_cases hu : (st.get "unitTest").isSome
  · simp only [hu, if_true, Run.bind_ret]
    refine ⟨_, rfl, ?_, ?_⟩
    · simp only [writePins_eq]
      rfl
    · intro hn
      simp [hn] at hu
  · simp only [hu, hid, Run.bind_ret]
    refine ⟨_, rfl, ?_, ?_⟩
    · simp only [writePins_eq]
      rfl
    · intro _ k
      exact ConfigState.get_of_set st _ k _

/-- The loop over the devices: the pin writes it adds and, outside the unit-test mode, the
clock identities it stores. -/
theorem deviceLoop_spec (fuel : Nat) (env : Env) (l : GoMap (GoMap String)) :
    ∀ st : ConfigState,
      (∀ d ∈ l.keys, ∃ id, getClockIdE810 fuel env.readFile d = Run.ret id) →
      ∃ st1, forRange (deviceBody fuel env) l st = Run.ret st1 ∧
        st1.effects = st.effects ++ (l.flatMap fun dp => dp.2.flatMap fun pv =>
          (phcsOf env dp.1).map fun phc =>
            Effect.writeFile (expectedPinPath dp.1 phc pv.1) pv.2) ∧
        (st.get "unitTest" = none →
          (∀ d ∈ l.keys, ∃ id, getClockIdE810 fuel env.readFile d = Run.ret id ∧
            st1.get (dpllClockIdStr env d) = some (FormatUint id)) ∧
          (∀ k, (∀ d ∈ l.keys, k ≠ dpllClockIdStr env d) → st1.get k = st.get k)) := by
  induction l with
  | nil =>
    intro st _
    exact ⟨st, rfl, by simp, fun _ => ⟨by simp [GoMap.keys], fun _ _ => rfl⟩⟩
  | cons e l ih =>
    intro st hres
    have hres1 : ∀ d ∈ GoMap.keys l, ∃ id, getClockIdE810 fuel env.readFile d = Run.ret id :=
      fun d hd => hres d (by simp only [GoMap.keys, List.map_cons]; exact List.mem_cons_of_mem _ hd)
    obtain ⟨id, hid⟩ := hres e.1 (by simp [GoMap.keys])
    obtain ⟨sa, ha, hfx, hget⟩ := deviceBody_spec fuel env st e id hid
    obtain ⟨sb, hb, hfxb, hgetb⟩ := ih sa hres1
    refine ⟨sb, by simp only [forRange, ha, Run.bind_ret, hb], ?_, ?_⟩
    · rw [hfxb, hfx, List.flatMap_cons, List.append_assoc]
    · intro hu
      have hget1 := hget hu
      have hua : sa.get "unitTest" = none := by
        rw [hget1, if_neg (fun h => dpllClockIdStr_ne_unitTest env e.1 h.symm), hu]
      obtain ⟨hids, hframe⟩ := hgetb hua
      constructor
      · intro d hd
        simp only [GoMap.keys, List.map_cons, List.mem_cons] at hd
        by_cases hdl : d ∈ GoMap.keys l
        · exact hids d hdl
        · have hde : d = e.1 := by
            rcases hd with h | h
            · exact h
            · exact absurd h hdl
          subst hde
          refine ⟨id, hid, ?_⟩
          rw [hframe _ (fun d1 hd1 h => hdl (by
            rw [dpllClockIdStr_injective env _ _ h]; exact hd1)), hget1, if_pos rfl]
      · intro k hk
        have hk1 : ∀ d ∈ GoMap.keys l, k ≠ dpllClockIdStr env d :=
          fun d hd => hk d (by
            simp only [GoMap.keys, List.map_cons]; exact List.mem_cons_of_mem _ hd)
        rw [hframe k hk1, hget1, if_neg (hk e.1 (by simp [GoMap.keys]))]

theorem dpllLoop_inv (I : ConfigState → Prop)
    (hI : ∀ s k v, I s → s.get k = none → I (s.set k v)) (l : GoMap Nat) :
    ∀ st, I st → ∃ st1, forRange dpllBody l st = Run.ret st1 ∧ I st1 := by
  refine forRange_inv I dpllBody l fun s hs e _ => ?_
  unfold dpllBody
  by_cases hn : (s.get e.1).isNone
  · simp only [hn, if_true]
    exact ⟨_, rfl, hI s _ _ hs (by simpa using hn)⟩
  · simp only [hn]
    exact ⟨s, rfl, hs⟩

/-- What the body for the block `e810` does when the identities of its devices resolve. -/
theorem configE810_spec (fuel : Nat) (env : Env) (opts : E810Opts) (st : ConfigState)
    (hres : ∀ d ∈ opts.DevicePins.keys, ∃ id, getClockIdE810 fuel env.readFile d = Run.ret id) :
    ∃ st1, configE810 fuel env opts st = Run.ret st1 ∧
      st1.effects = (enableDefaultConfig opts st).effects ++ expectedWrites env opts ∧
      (st.get "unitTest" = none → ∀ d ∈ opts.DevicePins.keys,
        (∀ io ∈ phaseVisited opts, ∀ pe ∈ io.2,
          io.1 ++ ".phaseOffsetFilter." ++ FormatUint (resolved fuel env io.1) ++ "." ++ pe.1
            ≠ dpllClockIdStr env d) →
        ∃ id, getClockIdE810 fuel env.readFile d = Run.ret id ∧
          st1.get (dpllClockIdStr env d) = some (FormatUint id)) := by
  unfold configE810
  obtain ⟨s3, e3, fx3, g3⟩ := deviceLoop_spec fuel env opts.DevicePins
    (makeSettings (enableDefaultConfig opts st)) hres
  have hset : ∀ (s : ConfigState) (k v : String), (s.set k v).effects = s.effects :=
    fun _ _ _ => rfl
  obtain ⟨s4, e4, fx4, g4⟩ := dpllLoop_inv
    (fun s => s.effects = s3.effects ∧ ∀ k v, s3.get k = some v → s.get k = some v)
    (fun s k v hs hk => ⟨by rw [hset, hs.1], fun x y hx => by
      have hne : x ≠ k := by
        intro h
        subst h
        rw [hs.2 x y hx] at hk
        simp at hk
      rw [ConfigState.get_of_set, if_neg hne]
      exact hs.2 x y hx⟩)
    opts.DpllSettings s3 ⟨rfl, fun _ _ h => h⟩
  obtain ⟨s5, e5, fx5, g5⟩ := phaseLoop_inv
    (fun s => s.effects = s3.effects ∧ ∀ k v,
      (∀ io ∈ phaseVisited opts, ∀ pe ∈ io.2,
        io.1 ++ ".phaseOffsetFilter." ++ FormatUint (resolved fuel env io.1) ++ "." ++ pe.1
          ≠ k) →
      s3.get k = some v → s.get k = some v)
    fuel env opts.DevicePins hres opts.PhaseOffsetPins
    (fun io hio pe hpe s hs => ⟨by rw [hset, hs.1], fun x y hcol hx => by
      rw [ConfigState.get_of_set, if_neg (fun h => hcol io hio pe hpe h.symm)]
      exact hs.2 x y hcol hx⟩)
    s4 ⟨fx4, fun k v _ h => g4 k v h⟩
  refine ⟨s5, by simp only [e3, Run.bind_ret, e4, e5], ?_, ?_⟩
  · rw [fx5, fx3]
    have : (makeSettings (enableDefaultConfig opts st)).effects
        = (enableDefaultConfig opts st).effects := by
      unfold makeSettings
      split <;> rfl
    rw [this]
    rfl
  · intro hu d hd hcol
    have hu1 : (makeSettings (enableDefaultConfig opts st)).get "unitTest" = none := by
      rw [get_makeSettings_enableDefaultConfig, hu]
    obtain ⟨id, hid, hget⟩ := (g3 hu1).1 d hd
    exact ⟨id, hid, g5 _ _ hcol hget⟩


/-! ## C5: where the pin values are written -/

theorem Run.bind_eq_ret {α β : Type} {r : Run α} {f : α → Run β} {b : β}
    (h : r.bind f = Run.ret b) : ∃ a, r = Run.ret a ∧ f a = Run.ret b := by
  cases r with
  | ret a => exact ⟨a, rfl, h⟩
  | crash => simp [Run.bind] at h
  | running => simp [Run.bind] at h

/-- A loop that returns leaves what every returning iteration keeps. -/
theorem forRange_of_ret {α σ : Type} (I : σ → Prop) (body : σ → α → Run σ)
    (h : ∀ s a s1, I s → body s a = Run.ret s1 → I s1) :
    ∀ (l : List α) (s s1 : σ), I s → forRange body l s = Run.ret s1 → I s1 := by
  intro l
  induction l with
  | nil =>
    intro s s1 hs hr
    simp only [forRange, Run.ret.injEq] at hr
    exact hr ▸ hs
  | cons a l ih =>
    intro s s1 hs hr
    obtain ⟨sa, ha, hrest⟩ := Run.bind_eq_ret hr
    exact ih sa s1 (h s a sa hs ha) hrest

theorem forRangeStop_of_ret {α σ : Type} (body : σ → α → Run σ) :
    ∀ (l : List α) (s s1 : σ), forRange body l s = Run.ret s1 → forRangeStop body l s = s1 := by
  intro l
  induction l with
  | nil =>
    intro s s1 hr
    simp only [forRange, Run.ret.injEq] at hr
    exact hr
  | cons a l ih =>
    intro s s1 hr
    obtain ⟨sa, ha, hrest⟩ := Run.bind_eq_ret hr
    simp only [forRangeStop, ha]
    exact ih sa s1 hrest

/-- An iteration of the loop over the devices that returns has added the pin writes of
its device. -/
theorem deviceBody_effects_of_ret (fuel : Nat) (env : Env) (st st1 : ConfigState)
    (e : String × GoMap String) (h : deviceBody fuel env st e = Run.ret st1) :
    st1.effects = st.effects ++ (e.2.flatMap fun pv =>
      (phcsOf env e.1).map fun phc =>
        Effect.writeFile (expectedPinPath e.1 phc pv.1) pv.2) := by
  unfold deviceBody at h
  by_cases hu : (st.get "unitTest").isSome
  · simp only [hu, if_true, Run.bind_ret, Run.ret.injEq] at h
    rw [← h]
    simp only [writePins_eq]
    rfl
  · simp only [hu] at h
    obtain ⟨sa, ha, hb⟩ := Run.bind_eq_ret h
    obtain ⟨id, _, hc⟩ := Run.bind_eq_ret ha
    simp only [Run.ret.injEq] at hb hc
    rw [← hb, ← hc]
    simp only [writePins_eq]
    rfl

/-- When the loop over the devices stops, it has added the pin writes of the devices of
the iterations it has completed. -/
theorem deviceLoop_stop_effects (fuel : Nat) (env : Env) (l : GoMap (GoMap String)) :
    ∀ st : ConfigState, ∃ n, n ≤ l.length ∧
      (forRangeStop (deviceBody fuel env) l st).effects
        = st.effects ++ ((l.take n).flatMap fun dp => dp.2.flatMap fun pv =>
            (phcsOf env dp.1).map fun phc =>
              Effect.writeFile (expectedPinPath dp.1 phc pv.1) pv.2) := by
  induction l with
  | nil => intro st; exact ⟨0, Nat.le_refl _, by simp [forRangeStop]⟩
  | cons e l ih =>
    intro st
    cases hb : deviceBody fuel env st e with
    | ret sa =>
      obtain ⟨n, hn, hfx⟩ := ih sa
      refine ⟨n + 1, by simp only [List.length_cons]; omega, ?_⟩
      simp only [forRangeStop, hb, hfx, deviceBody_effects_of_ret fuel env st sa e hb,
        List.take_succ_cons, List.flatMap_cons, List.append_assoc]
    | crash => exact ⟨0, Nat.zero_le _, by simp [forRangeStop, hb]⟩
    | running => exact ⟨0, Nat.zero_le _, by simp [forRangeStop, hb]⟩

theorem dpllBody_effects (st st1 : ConfigState) (e : String × Nat)
    (h : dpllBody st e = Run.ret st1) : st1.effects = st.effects := by
  unfold dpllBody at h
  split at h <;> simp only [Run.ret.injEq] at h <;> rw [← h] <;> rfl

theorem phaseLoop_effects_of_ret (fuel : Nat) (env : Env)
    (devicePins : GoMap (GoMap String)) (l : GoMap (GoMap String)) :
    ∀ st st1 : ConfigState, phaseLoop fuel env devicePins l st = Run.ret st1 →
      st1.effects = st.effects := by
  induction l with
  | nil =>
    intro st st1 h
    simp only [phaseLoop, Run.ret.injEq] at h
    rw [h]
  | cons io l ih =>
    intro st st1 h
    obtain ⟨iface, properties⟩ := io
    unfold phaseLoop at h
    by_cases hf : ifaceFound iface devicePins = true
    · simp only [hf, if_true] at h
      obtain ⟨sa, ha, hrest⟩ := Run.bind_eq_ret h
      have h1 : sa.effects = st.effects :=
        forRange_of_ret (fun s => s.effects = st.effects) (propertyBody fuel env iface)
          (fun s pe s1 hs hb => by
            unfold propertyBody at hb
            obtain ⟨id, _, hc⟩ := Run.bind_eq_ret hb
            simp only [Run.ret.injEq] at hc
            rw [← hc]
            exact hs) properties st sa rfl ha
      rw [ih sa st1 hrest, h1]
    · rw [if_neg hf] at h
      simp only [Run.ret.injEq] at h
      rw [h]

theorem dpllLoop_effects_of_ret (l : GoMap Nat) (st st1 : ConfigState)
    (h : forRange dpllBody l st = Run.ret st1) : st1.effects = st.effects :=
  forRange_of_ret (fun s => s.effects = st.effects) dpllBody
    (fun s e s1 hs hb => (dpllBody_effects s s1 e hb).trans hs) l st st1 rfl h

theorem deviceLoop_effects_of_ret (fuel : Nat) (env : Env) (l : GoMap (GoMap String)) :
    ∀ st st1 : ConfigState, forRange (deviceBody fuel env) l st = Run.ret st1 →
      st1.effects = st.effects ++ (l.flatMap fun dp => dp.2.flatMap fun pv =>
        (phcsOf env dp.1).map fun phc =>
          Effect.writeFile (expectedPinPath dp.1 phc pv.1) pv.2) := by
  induction l with
  | nil =>
    intro st st1 h
    simp only [forRange, Run.ret.injEq] at h
    simp [h]
  | cons e l ih =>
    intro st st1 h
    obtain ⟨sa, ha, hr⟩ := Run.bind_eq_ret h
    rw [ih sa st1 hr, deviceBody_effects_of_ret fuel env st sa e ha, List.flatMap_cons,
      List.append_assoc]

/-- When the body for the block `e810` returns, its effects are those of the loop over
the devices, which has returned. -/
theorem configE810_ret_parts (fuel : Nat) (env : Env) (opts : E810Opts)
    (st st1 : ConfigState) (h : configE810 fuel env opts st = Run.ret st1) :
    ∃ s3, forRange (deviceBody fuel env) opts.DevicePins
        (makeSettings (enableDefaultConfig opts st)) = Run.ret s3 ∧
      st1.effects = s3.effects := by
  unfold configE810 at h
  obtain ⟨s3, h3, hrest⟩ := Run.bind_eq_ret h
  obtain ⟨s4, h4, h5⟩ := Run.bind_eq_ret hrest
  exact ⟨s3, h3, (phaseLoop_effects_of_ret fuel env opts.DevicePins opts.PhaseOffsetPins
    s4 st1 h5).trans (dpllLoop_effects_of_ret opts.DpllSettings s3 s4 h4)⟩

theorem makeSettings_effects (st : ConfigState) : (makeSettings st).effects = st.effects := by
  unfold makeSettings
  split <;> rfl

theorem enableDefaultConfig_effects (opts : E810Opts) (st : ConfigState) :
    (enableDefaultConfig opts st).effects = st.effects ++ scriptRun opts := by
  unfold enableDefaultConfig scriptRun
  split <;> simp

/-- When the body for the block `e810` stops, it has run the script, if enabled, and
written the pins of the devices of the first iterations of the loop over the devices. -/
theorem configE810Effects_eq (fuel : Nat) (env : Env) (opts : E810Opts) (st : ConfigState) :
    ∃ n, n ≤ opts.DevicePins.length ∧ configE810Effects fuel env opts st
      = st.effects ++ scriptRun opts
        ++ expectedWrites env { opts with DevicePins := opts.DevicePins.take n } := by
  obtain ⟨n, hn, hfx⟩ := deviceLoop_stop_effects fuel env opts.DevicePins
    (makeSettings (enableDefaultConfig opts st))
  refine ⟨n, hn, ?_⟩
  rw [configE810Effects, hfx, makeSettings_effects, enableDefaultConfig_effects]
  rfl

/-- When the body for the block `e810` returns, it has run the script, if enabled, and
written the pins of every device. -/
theorem configE810_effects_of_ret (fuel : Nat) (env : Env) (opts : E810Opts)
    (st st1 : ConfigState) (h : configE810 fuel env opts st = Run.ret st1) :
    st1.effects = st.effects ++ scriptRun opts ++ expectedWrites env opts ∧
    configE810Effects fuel env opts st = st1.effects := by
  obtain ⟨s3, h3, he⟩ := configE810_ret_parts fuel env opts st st1 h
  constructor
  · rw [he, deviceLoop_effects_of_ret fuel env opts.DevicePins _ s3 h3, makeSettings_effects,
      enableDefaultConfig_effects]
    rfl
  · rw [configE810Effects, forRangeStop_of_ret (deviceBody fuel env) opts.DevicePins _ s3 h3,
      he]

theorem pluginEffects_skip (fuel : Nat) (env : Env) (l : GoMap E810Opts)
    (h : "e810" ∉ GoMap.keys l) (st : ConfigState) :
    pluginEffects fuel env l st = st.effects := by
  induction l with
  | nil => rfl
  | cons e l ih =>
    simp only [GoMap.keys, List.map_cons, List.mem_cons, not_or] at h
    have h1 : ¬ e.1 = "e810" := fun hh => h.1 hh.symm
    simp only [pluginEffects, h1, if_false]
    exact ih h.2

/-- The effects of the loop over the plugins of a profile are those of the body for the
block `e810`. -/
theorem pluginEffects_unique (fuel : Nat) (env : Env) (opts : E810Opts)
    (l : GoMap E810Opts) (hnodup : (GoMap.keys l).Nodup) (hmem : ("e810", opts) ∈ l)
    (st : ConfigState) :
    pluginEffects fuel env l st = configE810Effects fuel env opts st := by
  induction l with
  | nil => simp at hmem
  | cons e l ih =>
    simp only [GoMap.keys, List.map_cons, List.nodup_cons] at hnodup
    by_cases he : e = ("e810", opts)
    · subst he
      simp only [pluginEffects, if_true]
      cases hc : configE810 fuel env opts st with
      | ret st1 =>
        simp only []
        rw [pluginEffects_skip fuel env l hnodup.1 st1,
          (configE810_effects_of_ret fuel env opts st st1 hc).2]
      | crash => rfl
      | running => rfl
    · have hl : ("e810", opts) ∈ l := by
        rcases List.mem_cons.1 hmem with h | h
        · exact absurd h.symm he
        · exact h
      have h1 : ¬ e.1 = "e810" := by
        intro hh
        apply hnodup.1
        rw [hh]
        exact List.mem_map_of_mem Prod.fst hl
      simp only [pluginEffects, h1, if_false]
      exact ih hnodup.2 hl

/-- C5. For a profile that holds the block `e810` with the options `opts`, in every
world: what `OnPTPConfigChangeE810` has done outside the profile when it stops (by
returning or in a panic of `getClockIdE810`) is the default-configuration script, when
that is enabled, followed by one write per pin and PHC directory for the devices of the
first iterations of the loop over the devices, for all devices when the hook returns;
each write carries the configured value unchanged to the expected path, which is
`/sys/class/net/<device>/device/ptp/<phc>/period` exactly when the pin name starts with
`SDP` and `/sys/class/net/<device>/device/ptp/<phc>/pins/<pin>` for every other name; and
the hook returns when `getClockIdE810` returns for the listed devices. -/
theorem OnPTPConfigChangeE810_pin_writes (fuel : Nat) (env : Env) (p : PtpProfile)
    (opts : E810Opts) (hnodup : p.Plugins.keys.Nodup) (hmem : ("e810", opts) ∈ p.Plugins) :
    (∃ n, n ≤ opts.DevicePins.length ∧ effectsOnPTPConfigChangeE810 fuel env p
      = scriptRun opts
        ++ expectedWrites env { opts with DevicePins := opts.DevicePins.take n }) ∧
    (∀ out, OnPTPConfigChangeE810 fuel env p = Run.ret out →
      out.2 = scriptRun opts ++ expectedWrites env opts ∧
      effectsOnPTPConfigChangeE810 fuel env p = out.2) ∧
    ((∀ d ∈ opts.DevicePins.keys, ∃ id, getClockIdE810 fuel env.readFile d = Run.ret id) →
      ∃ out, OnPTPConfigChangeE810 fuel env p = Run.ret out) ∧
    ∀ device phc pin : String,
      (expectedPinPath device phc pin
          = "/sys/class/net/" ++ device ++ "/device/ptp/" ++ phc ++ "/period"
        ↔ pin.toList.take 3 = ['S', 'D', 'P']) ∧
      (pin.toList.take 3 ≠ ['S', 'D', 'P'] → expectedPinPath device phc pin
          = "/sys/class/net/" ++ device ++ "/device/ptp/" ++ phc ++ "/pins/" ++ pin) := by
  have hstop : ∃ n, n ≤ opts.DevicePins.length ∧ effectsOnPTPConfigChangeE810 fuel env p
      = scriptRun opts
        ++ expectedWrites env { opts with DevicePins := opts.DevicePins.take n } := by
    obtain ⟨n, hn, hfx⟩ := configE810Effects_eq fuel env opts
      { PtpSettings := p.PtpSettings, effects := [], draws := 0 }
    refine ⟨n, hn, ?_⟩
    rw [effectsOnPTPConfigChangeE810, pluginEffects_unique fuel env opts p.Plugins hnodup hmem,
      hfx]
    simp
  refine ⟨hstop, ?_, ?_, ?_⟩
  · intro out hout
    simp only [OnPTPConfigChangeE810,
      forRange_pluginBody_unique fuel env opts p.Plugins hnodup hmem] at hout
    obtain ⟨st1, h1, h2⟩ := Run.bind_eq_ret hout
    simp only [Run.ret.injEq] at h2
    obtain ⟨hfx, hstop1⟩ := configE810_effects_of_ret fuel env opts _ st1 h1
    have hout2 : out.2 = st1.effects := by rw [← h2]
    refine ⟨?_, ?_⟩
    · rw [hout2, hfx]
      simp
    · rw [effectsOnPTPConfigChangeE810,
        pluginEffects_unique fuel env opts p.Plugins hnodup hmem, hstop1, hout2]
  · intro hres
    obtain ⟨st, hst, _, _⟩ := configE810_spec fuel env opts
      { PtpSettings := p.PtpSettings, effects := [], draws := 0 } hres
    exact ⟨({ p with PtpSettings := st.PtpSettings }, st.effects), by
      simp only [OnPTPConfigChangeE810,
        forRange_pluginBody_unique fuel env opts p.Plugins hnodup hmem, hst, Run.bind_ret]⟩
  · intro device phc pin
    unfold expectedPinPath
    by_cases h : pin.toList.take 3 = ['S', 'D', 'P']
    · simp only [h, if_true, true_iff, ne_eq, not_true_eq_false, false_implies, and_self]
    · simp only [h, if_false, iff_false, ne_eq, not_false_eq_true, true_implies, and_true]
      exact pins_path_ne_period _ _

theorem OnPTPConfigChangeE810_pin_writes_witness :
    pinProfile.Plugins.keys.Nodup ∧ ("e810", pinOpts) ∈ pinProfile.Plugins ∧
    (∃ n, n ≤ pinOpts.DevicePins.length ∧ effectsOnPTPConfigChangeE810 2 dsnEnv pinProfile
      = scriptRun pinOpts
        ++ expectedWrites dsnEnv { pinOpts with DevicePins := pinOpts.DevicePins.take n }) ∧
    effectsOnPTPConfigChangeE810 2 dsnEnv pinProfile
      = [Effect.writeFile "/sys/class/net/ens1f0/device/ptp/ptp0/pins/SMA1" "0 1",
        Effect.writeFile "/sys/class/net/ens1f0/device/ptp/ptp0/period" "2 0 0 1 0"] ∧
    (OnPTPConfigChangeE810 2 mixedEnv (profileOf twoPortOpts)).bind (fun _ => Run.ret ())
      = Run.crash ∧
    effectsOnPTPConfigChangeE810 2 mixedEnv (profileOf twoPortOpts)
      = [Effect.writeFile "/sys/class/net/ens1f0/device/ptp/ptp0/pins/SMA1" "0 1"] := by
  have h1 : pinProfile.Plugins.keys.Nodup := by decide
  have h2 : ("e810", pinOpts) ∈ pinProfile.Plugins := by simp [pinProfile]
  exact ⟨h1, h2, (OnPTPConfigChangeE810_pin_writes 2 dsnEnv pinProfile pinOpts h1 h2).1,
    by decide, by decide, by decide⟩

/-! ## C6: the clock identity of a device -/

/-- C6, as stated, fails. `collidingProfile` holds the block `e810` and no `unitTest`
key, the device `a.phaseOffsetFilter.0.b` is listed in its pins and `getClockIdE810`
returns 0 for it, but after `OnPTPConfigChangeE810` its clock-identity key does not map
to `0`: the phase-offset-filter key written for the interface `clockId[a` is the same
string and carries the configured value `GNSS-1PPS`. -/
theorem OnPTPConfigChangeE810_clock_id_counterexample :
    "a.phaseOffsetFilter.0.b" ∈ collidingOpts.DevicePins.keys ∧
    settingsGet collidingProfile.PtpSettings "unitTest" = none ∧
    getClockIdE810 1 bareEnv.readFile "a.phaseOffsetFilter.0.b" = Run.ret 0 ∧
    FormatUint 0 = "0" ∧
    (OnPTPConfigChangeE810 1 bareEnv collidingProfile).bind
      (fun out => Run.ret (settingsGet out.1.PtpSettings
        (bareEnv.ClockIdStr ++ "[" ++ "a.phaseOffsetFilter.0.b" ++ "]")))
      = Run.ret (some "GNSS-1PPS") := by
  refine ⟨by decide, by decide, by decide, by decide, by decide⟩

/-- C6, amended. When the profile holds the block `e810` with the options `opts`, its
PtpSettings has no `unitTest` key and `getClockIdE810` returns for the devices listed in
the pins, `OnPTPConfigChangeE810` returns, and for every listed device whose
clock-identity key (the label, `[`, the device, `]`) is not a phase-offset-filter key
the call assigns (`<iface>.phaseOffsetFilter.<clockId>.<property>` for a phase-offset
pin the loop visits, with the identity `getClockIdE810` returns for the interface), the
PtpSettings map afterwards holds under that key the base-10 rendering of the identity
`getClockIdE810` returns for the device. -/
theorem OnPTPConfigChangeE810_sets_clock_id (fuel : Nat) (env : Env) (p : PtpProfile)
    (opts : E810Opts) (hnodup : p.Plugins.keys.Nodup) (hmem : ("e810", opts) ∈ p.Plugins)
    (hunit : settingsGet p.PtpSettings "unitTest" = none)
    (hres : ∀ d ∈ opts.DevicePins.keys, ∃ id, getClockIdE810 fuel env.readFile d = Run.ret id) :
    ∃ out, OnPTPConfigChangeE810 fuel env p = Run.ret out ∧
      ∀ d ∈ opts.DevicePins.keys,
        ¬ PhaseFilterKey fuel env p (env.ClockIdStr ++ "[" ++ d ++ "]") →
        ∃ id, getClockIdE810 fuel env.readFile d = Run.ret id ∧
          settingsGet out.1.PtpSettings (env.ClockIdStr ++ "[" ++ d ++ "]")
            = some (FormatUint id) := by
  obtain ⟨st, hst, _, hget⟩ := configE810_spec fuel env opts
    { PtpSettings := p.PtpSettings, effects := [], draws := 0 } hres
  refine ⟨({ p with PtpSettings := st.PtpSettings }, st.effects), ?_, ?_⟩
  · simp only [OnPTPConfigChangeE810,
      forRange_pluginBody_unique fuel env opts p.Plugins hnodup hmem, hst, Run.bind_ret]
  · intro d hd hcol
    exact hget hunit d hd fun io hio pe hpe h =>
      hcol ⟨("e810", opts), hmem, rfl, io, hio, pe, hpe, h.symm⟩

theorem OnPTPConfigChangeE810_sets_clock_id_witness :
    pinProfile.Plugins.keys.Nodup ∧ ("e810", pinOpts) ∈ pinProfile.Plugins ∧
    settingsGet pinProfile.PtpSettings "unitTest" = none ∧
    ¬ PhaseFilterKey 2 dsnEnv pinProfile ("clockId" ++ "[" ++ "ens1f0" ++ "]") ∧
    getClockIdE810 2 dsnEnv.readFile "ens1f0" = Run.ret 0x8877665544332211 ∧
    (∃ out, OnPTPConfigChangeE810 2 dsnEnv pinProfile = Run.ret out ∧
      settingsGet out.1.PtpSettings "clockId[ens1f0]" = some "9833440827789222417") ∧
    ∃ out, OnPTPConfigChangeE810 1 bareEnv (profileOf nearOpts) = Run.ret out ∧
      settingsGet out.1.PtpSettings "clockId[a.phaseOffsetFilter.7.b]" = some "0" := by
  have h1 : pinProfile.Plugins.keys.Nodup := by decide
  have h2 : ("e810", pinOpts) ∈ pinProfile.Plugins := by simp [pinProfile]
  have hid : getClockIdE810 2 dsnEnv.readFile "ens1f0" = Run.ret 0x8877665544332211 := by
    show getClockIdE810 2 (oneFile (configPath "ens1f0") dsnImage) "ens1f0" = _
    rw [getClockIdE810_oneFile]; decide
  have h3 : ∀ d ∈ pinOpts.DevicePins.keys,
      ∃ id, getClockIdE810 2 dsnEnv.readFile d = Run.ret id := by
    intro d hd
    have hd1 : d = "ens1f0" := by simpa [pinOpts, GoMap.keys] using hd
    subst hd1
    exact ⟨_, hid⟩
  have h4 : ¬ PhaseFilterKey 2 dsnEnv pinProfile ("clockId" ++ "[" ++ "ens1f0" ++ "]") := by
    rintro ⟨e, he, _, io, hio, pe, hpe, h⟩
    have he1 : e = ("e810", pinOpts) := by simpa [pinProfile] using he
    subst he1
    have hio1 : io = ("ens1f0", [("boardLabel", "GNSS-1PPS")]) := by
      have hv : phaseVisited pinOpts = [("ens1f0", [("boardLabel", "GNSS-1PPS")])] := by decide
      rw [hv] at hio
      simpa using hio
    subst hio1
    have := congrArg (fun s => s.data.head?) h
    simp at this
  obtain ⟨out, hout, hall⟩ :=
    OnPTPConfigChangeE810_sets_clock_id 2 dsnEnv pinProfile pinOpts h1 h2 rfl h3
  obtain ⟨id, hid1, hget⟩ := hall "ens1f0" (by simp [pinOpts, GoMap.keys]) h4
  rw [hid] at hid1
  have hid2 : id = 0x8877665544332211 := by
    injection hid1 with h
    exact h.symm
  subst hid2
  have hresN : ∀ d ∈ nearOpts.DevicePins.keys,
      ∃ id, getClockIdE810 1 bareEnv.readFile d = Run.ret id := fun d _ => ⟨0, rfl⟩
  have hno : ¬ PhaseFilterKey 1 bareEnv (profileOf nearOpts)
      (bareEnv.ClockIdStr ++ "[" ++ "a.phaseOffsetFilter.7.b" ++ "]") := by
    rintro ⟨e, he, _, io, hio, pe, hpe, h⟩
    have he1 : e = ("e810", nearOpts) := by simpa [profileOf] using he
    subst he1
    have hv : phaseVisited nearOpts = [("clockId[a", [("b]", "GNSS-1PPS")])] := by decide
    rw [hv] at hio
    have hio1 : io = ("clockId[a", [("b]", "GNSS-1PPS")]) := by simpa using hio
    subst hio1
    have hpe1 : pe = ("b]", "GNSS-1PPS") := by simpa using hpe
    subst hpe1
    revert h
    decide
  obtain ⟨outN, houtN, hallN⟩ := OnPTPConfigChangeE810_sets_clock_id 1 bareEnv
    (profileOf nearOpts) nearOpts (by decide) (by simp [profileOf]) rfl hresN
  obtain ⟨idN, hidN, hgetN⟩ := hallN "a.phaseOffsetFilter.7.b" (by decide) hno
  have hid0 : idN = 0 := by
    have h0 : getClockIdE810 1 bareEnv.readFile "a.phaseOffsetFilter.7.b" = Run.ret 0 := rfl
    rw [h0] at hidN
    injection hidN with h
    exact h.symm
  subst hid0
  refine ⟨h1, h2, rfl, h4, hid, ⟨out, hout, ?_⟩, outN, houtN, hgetN⟩
  rw [show "clockId[ens1f0]" = dsnEnv.ClockIdStr ++ "[" ++ "ens1f0" ++ "]" by decide, hget]
  decide


/-! ## C7: the hardware status records -/

/-- C7. For a plugin state that holds the status strings `ss` and a caller's list `L`,
`PopulateHwConfigE810` leaves the plugin state as it is and makes the caller's list `L`
followed by one record (`DeviceID` `e810`, `Status` the string) per status string, in
stored order; so two calls in a row, each on an empty list, return the same records. -/
theorem PopulateHwConfigE810_appends (ss : List String) (L : List HwConfig) :
    PopulateHwConfigE810 (pluginState ss) L
      = Run.ret (pluginState ss,
          L ++ ss.map fun s => { DeviceID := "e810", Status := s }) ∧
    (PopulateHwConfigE810 (pluginState ss) []).bind (fun r1 =>
        (PopulateHwConfigE810 r1.1 []).bind fun r2 => Run.ret (r1.2, r2.2))
      = Run.ret (ss.map (fun s => { DeviceID := "e810", Status := s }),
          ss.map (fun s => { DeviceID := "e810", Status := s })) := by
  have hfold : ∀ (l : List String) (acc : List HwConfig),
      l.foldl (fun acc s => acc ++ [({ DeviceID := "e810", Status := s } : HwConfig)]) acc
        = acc ++ l.map fun s => { DeviceID := "e810", Status := s } := by
    intro l
    induction l with
    | nil => intro acc; simp
    | cons s l ih => intro acc; simp only [List.foldl_cons, ih]; simp
  have hcall : ∀ L : List HwConfig, PopulateHwConfigE810 (pluginState ss) L
      = Run.ret (pluginState ss, L ++ ss.map fun s => { DeviceID := "e810", Status := s }) := by
    intro L
    simp only [PopulateHwConfigE810, pluginState, hfold]
  refine ⟨hcall L, ?_⟩
  simp only [hcall, Run.bind_ret, List.nil_append]

/-! ## C9: the ublx commands after `gpspipe` -/

theorem statusFrom_append (env : Env) (a b : List E810UblxCmds) :
    ∀ i, statusFrom env i (a ++ b)
      = statusFrom env i a ++ statusFrom env (i + a.length) b := by
  induction a with
  | nil => intro i; simp [statusFrom]
  | cons c a ih =>
    intro i
    show _ ++ statusFrom env (i + 1) (a ++ b) = _
    rw [ih]
    simp only [statusFrom, List.length_cons, List.append_assoc]
    rw [show i + 1 + a.length = i + (a.length + 1) by omega]

theorem statusFrom_default (env : Env) (i : Nat) :
    statusFrom env i getDefaultUblxCmds = [] := by
  simp [getDefaultUblxCmds, statusFrom]

/-- The loop over the ublx commands, for a plugin state that holds status strings. -/
theorem ublxLoop_spec (env : Env) (cmds : List E810UblxCmds) :
    ∀ (ss : List String) (fx : List Effect) (i : Nat),
      forRange (ublxBody env) cmds { data := pluginState ss, effects := fx, runs := i }
        = Run.ret { data := pluginState (ss ++ statusFrom env i cmds),
                    effects := fx ++ cmds.map fun c =>
                      Effect.exec "/usr/local/bin/ubxtool" c.Args,
                    runs := i + cmds.length } := by
  induction cmds with
  | nil => intro ss fx i; simp [forRange, statusFrom]
  | cons c cmds ih =>
    intro ss fx i
    by_cases hr : c.ReportOutput = true
    · simp only [forRange, ublxBody, pluginState, hr, if_true, Run.bind_ret]
      have := ih (ss ++ ["ublx data: " ++ env.combinedOutput i "/usr/local/bin/ubxtool" c.Args])
        (fx ++ [Effect.exec "/usr/local/bin/ubxtool" c.Args]) (i + 1)
      simp only [pluginState] at this
      rw [this]
      simp [statusFrom, hr, Nat.add_comm, Nat.add_left_comm]
    · simp only [forRange, ublxBody, pluginState, hr, Run.bind_ret]
      have := ih ss (fx ++ [Effect.exec "/usr/local/bin/ubxtool" c.Args]) (i + 1)
      simp only [pluginState] at this
      simp only [Bool.false_eq_true, if_false, Run.bind_ret]
      rw [this]
      simp [statusFrom, hr, Nat.add_comm, Nat.add_left_comm]

theorem forRange_commandBody_skip (env : Env) (command : String) (l : GoMap E810Opts)
    (h : "e810" ∉ GoMap.keys l) (st : CommandState) :
    forRange (commandBody env command) l st = Run.ret st := by
  induction l with
  | nil => rfl
  | cons e l ih =>
    simp only [GoMap.keys, List.map_cons, List.mem_cons, not_or] at h
    have h1 : ¬ e.1 = "e810" := fun hh => h.1 hh.symm
    simp only [forRange, commandBody, h1, if_false, Run.bind_ret]
    exact ih h.2

theorem forRange_commandBody_unique (env : Env) (command : String) (opts : E810Opts)
    (l : GoMap E810Opts) (hnodup : (GoMap.keys l).Nodup) (hmem : ("e810", opts) ∈ l)
    (st : CommandState) :
    forRange (commandBody env command) l st
      = commandBody env command st ("e810", opts) := by
  induction l with
  | nil => simp at hmem
  | cons e l ih =>
    simp only [GoMap.keys, List.map_cons, List.nodup_cons] at hnodup
    by_cases he : e = ("e810", opts)
    · subst he
      have hskip : ∀ s, forRange (commandBody env command) l s = Run.ret s :=
        fun s => forRange_commandBody_skip env command l hnodup.1 s
      simp only [forRange]
      rw [show (fun s1 => forRange (commandBody env command) l s1) = fun s1 => Run.ret s1 from
        funext hskip]
      exact Run.bind_pure _
    · have hl : ("e810", opts) ∈ l := by
        rcases List.mem_cons.1 hmem with h | h
        · exact absurd h.symm he
        · exact h
      have h1 : ¬ e.1 = "e810" := by
        intro hh
        apply hnodup.1
        rw [hh]
        exact List.mem_map_of_mem Prod.fst hl
      have h2 : commandBody env command st e = Run.ret st := by
        simp only [commandBody, h1, if_false]
      simp only [forRange, h2, Run.bind_ret]
      exact ih hnodup.2 hl

/-- C9. For a profile that holds the block `e810` with the options `opts` and a plugin
state that holds the status strings `ss`: after a command other than `gpspipe`,
`AfterRunPTPCommandE810` leaves the status strings as they are and runs nothing; after
`gpspipe` it runs `ubxtool` with the configured ublx commands in configured order and
then with the three default commands (`CFG-MSG,1,34,1`, `CFG-MSG,1,3,1`, `SAVE`), and
the status strings become `ss` followed by `ublx data: ` and the output of the command
for each configured command whose `reportOutput` is set, in order; the default commands
add nothing. -/
theorem AfterRunPTPCommandE810_status (env : Env) (p : PtpProfile) (opts : E810Opts)
    (ss : List String) (hnodup : p.Plugins.keys.Nodup) (hmem : ("e810", opts) ∈ p.Plugins) :
    (∀ command, command ≠ "gpspipe" →
      AfterRunPTPCommandE810 env (pluginState ss) p command
        = Run.ret (pluginState ss, [])) ∧
    AfterRunPTPCommandE810 env (pluginState ss) p "gpspipe"
      = Run.ret (pluginState (ss ++ statusFrom env 0 opts.UblxCmds),
          (opts.UblxCmds.map fun c => Effect.exec "/usr/local/bin/ubxtool" c.Args)
            ++ [Effect.exec "/usr/local/bin/ubxtool" ["-p", "CFG-MSG,1,34,1"],
                Effect.exec "/usr/local/bin/ubxtool" ["-p", "CFG-MSG,1,3,1"],
                Effect.exec "/usr/local/bin/ubxtool" ["-p", "SAVE"]]) := by
  constructor
  · intro command hc
    simp only [AfterRunPTPCommandE810,
      forRange_commandBody_unique env command opts p.Plugins hnodup hmem, commandBody,
      if_true, hc, if_false, Run.bind_ret]
  · simp only [AfterRunPTPCommandE810,
      forRange_commandBody_unique env "gpspipe" opts p.Plugins hnodup hmem, commandBody,
      if_true, ublxLoop_spec, Run.bind_ret, statusFrom_append, statusFrom_default,
      List.append_nil, List.nil_append, List.map_append]
    rfl

theorem AfterRunPTPCommandE810_status_witness :
    gpsProfile.Plugins.keys.Nodup ∧ ("e810", gpsOpts) ∈ gpsProfile.Plugins ∧
    AfterRunPTPCommandE810 gpsEnv (pluginState ["up"]) gpsProfile "ts2phc"
      = Run.ret (pluginState ["up"], []) ∧
    AfterRunPTPCommandE810 gpsEnv (pluginState ["up"]) gpsProfile "gpspipe"
      = Run.ret (pluginState ["up", "ublx data: 0:-p", "ublx data: 2:-v"],
          [Effect.exec "/usr/local/bin/ubxtool" ["-p", "MON-VER"],
           Effect.exec "/usr/local/bin/ubxtool" ["-z", "CFG-HW-ANT_CFG_VOLTCTRL,1"],
           Effect.exec "/usr/local/bin/ubxtool" ["-v", "1"],
           Effect.exec "/usr/local/bin/ubxtool" ["-p", "CFG-MSG,1,34,1"],
           Effect.exec "/usr/local/bin/ubxtool" ["-p", "CFG-MSG,1,3,1"],
           Effect.exec "/usr/local/bin/ubxtool" ["-p", "SAVE"]]) := by
  have h1 : gpsProfile.Plugins.keys.Nodup := by decide
  have h2 : ("e810", gpsOpts) ∈ gpsProfile.Plugins := by simp [gpsProfile]
  obtain ⟨ha, hb⟩ := AfterRunPTPCommandE810_status gpsEnv gpsProfile gpsOpts ["up"] h1 h2
  refine ⟨h1, h2, ha "ts2phc" (by decide), ?_⟩
  rw [hb]
  decide

/-! ## The loops as assignments -/

theorem ifaceFound_of_mem {iface : String} {devicePins : GoMap (GoMap String)}
    (h : iface ∈ devicePins.keys) : ifaceFound iface devicePins = true := by
  simp only [GoMap.keys, List.mem_map] at h
  obtain ⟨e, he, rfl⟩ := h
  simp only [ifaceFound, List.any_eq_true, decide_eq_true_eq]
  exact ⟨e, he, rfl⟩

theorem setAll_nil (st : ConfigState) : setAll [] st = st := rfl

theorem setAll_cons (e : String × String) (l : List (String × String)) (st : ConfigState) :
    setAll (e :: l) st = setAll l (st.set e.1 e.2) := rfl

theorem setAll_append (l1 l2 : List (String × String)) (st : ConfigState) :
    setAll (l1 ++ l2) st = setAll l2 (setAll l1 st) := by
  simp only [setAll, List.foldl_append]

/-- The loop over the properties of an interface is a run of assignments. -/
theorem propertyLoop_eq (fuel : Nat) (env : Env) (iface : String) (id : Nat)
    (hid : getClockIdE810 fuel env.readFile iface = Run.ret id) (props : GoMap String) :
    ∀ st, forRange (propertyBody fuel env iface) props st
      = Run.ret (setAll (props.map fun pe =>
          (iface ++ ".phaseOffsetFilter." ++ FormatUint id ++ "." ++ pe.1, pe.2)) st) := by
  induction props with
  | nil => intro st; rfl
  | cons pe props ih =>
    intro st
    simp only [forRange, propertyBody, hid, Run.bind_ret, phaseKey_eq, List.map_cons,
      setAll_cons]
    exact ih _

/-- The loop over the phase-offset pins, when every interface is listed in the pins, is
the run of the assignments of the entries. -/
theorem phaseLoop_eq_setAll (fuel : Nat) (env : Env) (devicePins : GoMap (GoMap String))
    (hres : ∀ d ∈ devicePins.keys, ∃ id, getClockIdE810 fuel env.readFile d = Run.ret id)
    (l : GoMap (GoMap String)) (hlisted : ∀ iface ∈ GoMap.keys l, iface ∈ devicePins.keys) :
    ∀ st, phaseLoop fuel env devicePins l st
      = Run.ret (setAll (phaseAssignments fuel env l) st) := by
  induction l with
  | nil => intro st; rfl
  | cons io l ih =>
    intro st
    obtain ⟨iface, properties⟩ := io
    have hin : iface ∈ devicePins.keys := hlisted iface (by simp [GoMap.keys])
    obtain ⟨id, hid⟩ := hres iface hin
    have hrest : ∀ i ∈ GoMap.keys l, i ∈ devicePins.keys := fun i hi =>
      hlisted i (by simp only [GoMap.keys, List.map_cons]; exact List.mem_cons_of_mem _ hi)
    unfold phaseLoop
    simp only [ifaceFound_of_mem hin, if_true, propertyLoop_eq fuel env iface id hid,
      Run.bind_ret, ih hrest]
    simp only [phaseAssignments, phaseEntries, List.flatMap_cons, List.map_append,
      List.map_map, setAll_append, Function.comp_def, resolved_eq hid]

/-- A key that no assignment names keeps its value. -/
theorem setAll_get_of_not_mem (l : List (String × String)) (k : String) :
    ∀ st : ConfigState, k ∉ l.map Prod.fst → (setAll l st).get k = st.get k := by
  induction l with
  | nil => intro st _; rfl
  | cons e l ih =>
    intro st hk
    simp only [List.map_cons, List.mem_cons, not_or] at hk
    rw [setAll_cons, ih _ hk.2, ConfigState.get_of_set, if_neg hk.1]

/-- When assignments to the same key carry the same value, every assigned key holds the
value of its assignments. -/
theorem setAll_get_of_mem (l : List (String × String))
    (hfun : ∀ e1 ∈ l, ∀ e2 ∈ l, e1.1 = e2.1 → e1.2 = e2.2) (k v : String)
    (hkv : (k, v) ∈ l) : ∀ st : ConfigState, (setAll l st).get k = some v := by
  induction l with
  | nil => simp at hkv
  | cons e l ih =>
    intro st
    have hfun1 : ∀ e1 ∈ l, ∀ e2 ∈ l, e1.1 = e2.1 → e1.2 = e2.2 := fun e1 h1 e2 h2 =>
      hfun e1 (List.mem_cons_of_mem _ h1) e2 (List.mem_cons_of_mem _ h2)
    rw [setAll_cons]
    by_cases hk : k ∈ l.map Prod.fst
    · obtain ⟨e2, he2, hke⟩ := List.mem_map.1 hk
      have hv : e2.2 = v :=
        hfun e2 (List.mem_cons_of_mem _ he2) (k, v) hkv hke
      have hmem : (k, v) ∈ l := by
        have : e2 = (k, v) := Prod.ext hke hv
        rw [← this]
        exact he2
      exact ih hfun1 hmem _
    · have he : e = (k, v) := by
        rcases List.mem_cons.1 hkv with h | h
        · exact h.symm
        · exact absurd (List.mem_map_of_mem Prod.fst h) hk
      subst he
      rw [setAll_get_of_not_mem l k _ hk, ConfigState.get_of_set, if_pos rfl]

/-- The loop over the DPLL settings: a key that is present keeps its value, an absent
key that is a setting gets the rendering of the setting, any other key is left alone. -/
theorem dpllLoop_spec (l : GoMap Nat) (hnodup : (GoMap.keys l).Nodup) :
    ∀ st : ConfigState, ∃ st1, forRange dpllBody l st = Run.ret st1 ∧
      (∀ k v, st.get k = some v → st1.get k = some v) ∧
      (∀ k v, st.get k = none → (k, v) ∈ l → st1.get k = some (FormatUint v)) ∧
      (∀ k, k ∉ GoMap.keys l → st1.get k = st.get k) := by
  induction l with
  | nil =>
    intro st
    exact ⟨st, rfl, fun _ _ h => h, fun _ _ _ h => by simp at h, fun _ _ => rfl⟩
  | cons e l ih =>
    intro st
    obtain ⟨k0, v0⟩ := e
    simp only [GoMap.keys, List.map_cons, List.nodup_cons] at hnodup
    by_cases hn : (st.get k0).isNone
    · have hk0 : st.get k0 = none := by simpa using hn
      obtain ⟨st1, h1, hkeep, hnew, hframe⟩ := ih hnodup.2 (st.set k0 (FormatUint v0))
      refine ⟨st1, by simp only [forRange, dpllBody, hn, if_true, Run.bind_ret, h1], ?_, ?_, ?_⟩
      · intro k v hk
        have hne : k ≠ k0 := by
          intro h
          rw [h, hk0] at hk
          simp at hk
        exact hkeep k v (by rw [ConfigState.get_of_set, if_neg hne]; exact hk)
      · intro k v hk hmem
        rcases List.mem_cons.1 hmem with h | h
        · have hk1 : k = k0 := congrArg Prod.fst h
          have hv1 : v = v0 := congrArg Prod.snd h
          subst hk1 hv1
          exact hkeep k _ (by rw [ConfigState.get_of_set, if_pos rfl])
        · have hne : k ≠ k0 := by
            intro hh
            apply hnodup.1
            rw [← hh]
            exact List.mem_map_of_mem Prod.fst h
          exact hnew k v (by rw [ConfigState.get_of_set, if_neg hne]; exact hk) h
      · intro k hk
        simp only [GoMap.keys, List.map_cons, List.mem_cons, not_or] at hk
        rw [hframe k hk.2, ConfigState.get_of_set, if_neg hk.1]
    · obtain ⟨st1, h1, hkeep, hnew, hframe⟩ := ih hnodup.2 st
      have hbody : dpllBody st (k0, v0) = Run.ret st := by
        simp only [dpllBody, hn]
        rfl
      refine ⟨st1, by simp only [forRange, hbody, Run.bind_ret, h1], hkeep, ?_, ?_⟩
      · intro k v hk hmem
        rcases List.mem_cons.1 hmem with h | h
        · have hk1 : k = k0 := congrArg Prod.fst h
          subst hk1
          rw [hk] at hn
          simp at hn
        · exact hnew k v hk h
      · intro k hk
        simp only [GoMap.keys, List.map_cons, List.mem_cons, not_or] at hk
        exact hframe k hk.2

/-- The settings after the body for the block `e810`, key by key, when every interface
of the phase-offset pins is listed in the pins and assignments of phase-offset-filter
keys to the same key carry the same value. -/
theorem configE810_settings (fuel : Nat) (env : Env) (opts : E810Opts) (st : ConfigState)
    (hres : ∀ d ∈ opts.DevicePins.keys, ∃ id, getClockIdE810 fuel env.readFile d = Run.ret id)
    (hdn : opts.DpllSettings.keys.Nodup)
    (hlisted : ∀ iface ∈ opts.PhaseOffsetPins.keys, iface ∈ opts.DevicePins.keys)
    (hfun : ∀ e1 ∈ phaseAssignments fuel env opts.PhaseOffsetPins,
      ∀ e2 ∈ phaseAssignments fuel env opts.PhaseOffsetPins, e1.1 = e2.1 → e1.2 = e2.2)
    (hunit : st.get "unitTest" = none) :
    ∃ st1, configE810 fuel env opts st = Run.ret st1 ∧ ∀ k,
      (∀ v, (k, v) ∈ phaseAssignments fuel env opts.PhaseOffsetPins → st1.get k = some v) ∧
      (k ∉ (phaseAssignments fuel env opts.PhaseOffsetPins).map Prod.fst →
        (∀ d ∈ opts.DevicePins.keys, k = dpllClockIdStr env d →
          st1.get k = some (FormatUint (resolved fuel env d))) ∧
        ((∀ d ∈ opts.DevicePins.keys, k ≠ dpllClockIdStr env d) →
          (∀ v, st.get k = some v → st1.get k = some v) ∧
          (st.get k = none →
            (∀ v, (k, v) ∈ opts.DpllSettings → st1.get k = some (FormatUint v)) ∧
            (k ∉ opts.DpllSettings.keys → st1.get k = none)))) := by
  unfold configE810
  obtain ⟨s3, e3, _, g3⟩ := deviceLoop_spec fuel env opts.DevicePins
    (makeSettings (enableDefaultConfig opts st)) hres
  have hu1 : (makeSettings (enableDefaultConfig opts st)).get "unitTest" = none := by
    rw [get_makeSettings_enableDefaultConfig, hunit]
  obtain ⟨hids, hframe3⟩ := g3 hu1
  obtain ⟨s4, e4, hkeep4, hnew4, hframe4⟩ := dpllLoop_spec opts.DpllSettings hdn s3
  have e5 := phaseLoop_eq_setAll fuel env opts.DevicePins hres opts.PhaseOffsetPins hlisted s4
  refine ⟨setAll (phaseAssignments fuel env opts.PhaseOffsetPins) s4,
    by simp only [e3, Run.bind_ret, e4, e5], ?_⟩
  intro k
  refine ⟨fun v hv => setAll_get_of_mem _ hfun k v hv s4, ?_⟩
  intro hk
  rw [setAll_get_of_not_mem _ k s4 hk]
  refine ⟨?_, ?_⟩
  · intro d hd hkd
    obtain ⟨id, hid, hget⟩ := hids d hd
    rw [resolved_eq hid, hkd]
    exact hkeep4 _ _ hget
  · intro hnd
    have h3 : s3.get k = st.get k := by
      rw [hframe3 k hnd, get_makeSettings_enableDefaultConfig]
    refine ⟨fun v hv => hkeep4 k v (by rw [h3]; exact hv), fun hnone => ⟨?_, ?_⟩⟩
    · intro v hv
      exact hnew4 k v (by rw [h3]; exact hnone) hv
    · intro hnk
      rw [hframe4 k hnk, h3, hnone]

/-! ## C11: the order in which the maps are visited -/

/-- C11. The result of `OnPTPConfigChangeE810` depends on the order in which the
phase-offset pins are visited. `listedFirstOpts` and `listedLastOpts` are the same
options block with the phase-offset pins in another order; its interface `ens1f0` is
listed in the pins and `ens9f9` is not. When `ens1f0` is visited first its key
`ens1f0.phaseOffsetFilter.9833440827789222417.boardLabel` is written; when `ens9f9` is
visited first the loop is left by `break` and the key is not written. -/
theorem OnPTPConfigChangeE810_break_order_dependent :
    Reordered listedFirstOpts listedLastOpts ∧
    "ens1f0" ∈ listedLastOpts.DevicePins.keys ∧
    settingsGet (profileOf listedFirstOpts).PtpSettings "unitTest" = none ∧
    getClockIdE810 2 dsnEnv.readFile "ens1f0" = Run.ret 9833440827789222417 ∧
    settingAfter 2 dsnEnv (profileOf listedFirstOpts)
      "ens1f0.phaseOffsetFilter.9833440827789222417.boardLabel"
      = Run.ret (some "GNSS-1PPS") ∧
    settingAfter 2 dsnEnv (profileOf listedLastOpts)
      "ens1f0.phaseOffsetFilter.9833440827789222417.boardLabel" = Run.ret none := by
  refine ⟨⟨by decide, by decide, by decide, by decide⟩, by decide, by decide, ?_, by decide,
    by decide⟩
  show getClockIdE810 2 (oneFile (configPath "ens1f0") dsnImage) "ens1f0" = _
  rw [getClockIdE810_oneFile]
  decide

/-- Apart from the `break`, the order matters only for clashing keys. `clashOpts` and
`clashOptsSwapped` are the same options block, with every interface of the phase-offset
pins listed in the pins, in which two phase-offset pins have the same key: the value of
the key is that of the pin visited last. -/
theorem OnPTPConfigChangeE810_clash_order_dependent :
    Reordered clashOpts clashOptsSwapped ∧
    settingAfter 1 bareEnv (profileOf clashOpts)
      "a.phaseOffsetFilter.0.b.phaseOffsetFilter.0.c" = Run.ret (some "SMA2") ∧
    settingAfter 1 bareEnv (profileOf clashOptsSwapped)
      "a.phaseOffsetFilter.0.b.phaseOffsetFilter.0.c" = Run.ret (some "SMA1") := by
  refine ⟨⟨by decide, by decide, by decide, by decide⟩, by decide, by decide⟩

/-- What does not depend on the order. Let `opts1` be the options block `opts` with its
pins, settings and phase-offset pins visited in another order, in profiles with the same
PtpSettings, which
has no `unitTest` key, and let `getClockIdE810` return for the listed devices. When every
interface of the phase-offset pins is also listed in the pins and no two phase-offset
pins with different values have the same phase-offset-filter key, both runs of
`OnPTPConfigChangeE810` return and leave the same value under every key of PtpSettings,
and every phase-offset pin has its key
`<iface>.phaseOffsetFilter.<clockId>.<property>` written with its value. -/
theorem OnPTPConfigChangeE810_order_independent (fuel : Nat) (env : Env)
    (p p1 : PtpProfile) (opts opts1 : E810Opts)
    (hnodup : p.Plugins.keys.Nodup) (hmem : ("e810", opts) ∈ p.Plugins)
    (hnodup1 : p1.Plugins.keys.Nodup) (hmem1 : ("e810", opts1) ∈ p1.Plugins)
    (hsame : p1.PtpSettings = p.PtpSettings)
    (hre : Reordered opts opts1)
    (hunit : settingsGet p.PtpSettings "unitTest" = none)
    (hres : ∀ d ∈ opts.DevicePins.keys, ∃ id, getClockIdE810 fuel env.readFile d = Run.ret id)
    (hdn : opts.DpllSettings.keys.Nodup)
    (hlisted : ∀ iface ∈ opts.PhaseOffsetPins.keys, iface ∈ opts.DevicePins.keys)
    (hfun : ∀ e1 ∈ phaseAssignments fuel env opts.PhaseOffsetPins,
      ∀ e2 ∈ phaseAssignments fuel env opts.PhaseOffsetPins, e1.1 = e2.1 → e1.2 = e2.2) :
    ∃ out out1, OnPTPConfigChangeE810 fuel env p = Run.ret out ∧
      OnPTPConfigChangeE810 fuel env p1 = Run.ret out1 ∧
      (∀ k, settingsGet out.1.PtpSettings k = settingsGet out1.1.PtpSettings k) ∧
      ∀ io ∈ opts.PhaseOffsetPins, ∀ pe ∈ io.2,
        settingsGet out.1.PtpSettings
          (io.1 ++ ".phaseOffsetFilter." ++ FormatUint (resolved fuel env io.1) ++ "." ++ pe.1)
          = some pe.2 := by
  obtain ⟨hdev, hdpll, hpk, hpe⟩ := hre
  have hA : (phaseAssignments fuel env opts.PhaseOffsetPins).Perm
      (phaseAssignments fuel env opts1.PhaseOffsetPins) := hpe.map _
  have hres1 : ∀ d ∈ opts1.DevicePins.keys,
      ∃ id, getClockIdE810 fuel env.readFile d = Run.ret id :=
    fun d hd => hres d (hdev.mem_iff.2 hd)
  have hdn1 : opts1.DpllSettings.keys.Nodup :=
    ((hdpll.map Prod.fst).nodup_iff).1 hdn
  have hlisted1 : ∀ iface ∈ opts1.PhaseOffsetPins.keys, iface ∈ opts1.DevicePins.keys :=
    fun i hi => hdev.mem_iff.1 (hlisted i (hpk.mem_iff.2 hi))
  have hfun1 : ∀ e1 ∈ phaseAssignments fuel env opts1.PhaseOffsetPins,
      ∀ e2 ∈ phaseAssignments fuel env opts1.PhaseOffsetPins, e1.1 = e2.1 → e1.2 = e2.2 :=
    fun e1 h1 e2 h2 => hfun e1 (hA.mem_iff.2 h1) e2 (hA.mem_iff.2 h2)
  obtain ⟨s, hs, hspec⟩ := configE810_settings fuel env opts
    { PtpSettings := p.PtpSettings, effects := [], draws := 0 } hres hdn hlisted hfun hunit
  obtain ⟨s1, hs1, hspec1⟩ := configE810_settings fuel env opts1
    { PtpSettings := p.PtpSettings, effects := [], draws := 0 } hres1 hdn1 hlisted1 hfun1 hunit
  refine ⟨({ p with PtpSettings := s.PtpSettings }, s.effects),
    ({ p1 with PtpSettings := s1.PtpSettings }, s1.effects), ?_, ?_, ?_, ?_⟩
  · simp only [OnPTPConfigChangeE810,
      forRange_pluginBody_unique fuel env opts p.Plugins hnodup hmem, hs, Run.bind_ret]
  · simp only [OnPTPConfigChangeE810, hsame,
      forRange_pluginBody_unique fuel env opts1 p1.Plugins hnodup1 hmem1, hs1, Run.bind_ret]
  · intro k
    show s.get k = s1.get k
    obtain ⟨ha, hb⟩ := hspec k
    obtain ⟨ha1, hb1⟩ := hspec1 k
    by_cases hk : k ∈ (phaseAssignments fuel env opts.PhaseOffsetPins).map Prod.fst
    · obtain ⟨e, he, hke⟩ := List.mem_map.1 hk
      have hmemA : (k, e.2) ∈ phaseAssignments fuel env opts.PhaseOffsetPins := by
        rw [← hke]
        exact he
      rw [ha _ hmemA, ha1 _ (hA.mem_iff.1 hmemA)]
    · have hk1 : k ∉ (phaseAssignments fuel env opts1.PhaseOffsetPins).map Prod.fst :=
        fun h => hk ((hA.map Prod.fst).mem_iff.2 h)
      obtain ⟨hc, hd⟩ := hb hk
      obtain ⟨hc1, hd1⟩ := hb1 hk1
      by_cases hdev1 : ∃ d ∈ opts.DevicePins.keys, k = dpllClockIdStr env d
      · obtain ⟨d, hdmem, hkd⟩ := hdev1
        rw [hc d hdmem hkd, hc1 d (hdev.mem_iff.1 hdmem) hkd]
      · have hn : ∀ d ∈ opts.DevicePins.keys, k ≠ dpllClockIdStr env d :=
          fun d hdm h => hdev1 ⟨d, hdm, h⟩
        have hn1 : ∀ d ∈ opts1.DevicePins.keys, k ≠ dpllClockIdStr env d :=
          fun d hdm => hn d (hdev.mem_iff.2 hdm)
        obtain ⟨hkeep, hnone⟩ := hd hn
        obtain ⟨hkeep1, hnone1⟩ := hd1 hn1
        cases h0 : ConfigState.get
            { PtpSettings := p.PtpSettings, effects := [], draws := 0 } k with
        | some v => rw [hkeep v h0, hkeep1 v h0]
        | none =>
          obtain ⟨hset, habs⟩ := hnone h0
          obtain ⟨hset1, habs1⟩ := hnone1 h0
          by_cases hD : k ∈ opts.DpllSettings.keys
          · obtain ⟨e, he, hke⟩ := List.mem_map.1 hD
            have hmemD : (k, e.2) ∈ opts.DpllSettings := by
              rw [← hke]
              exact he
            rw [hset _ hmemD, hset1 _ (hdpll.mem_iff.1 hmemD)]
          · have hD1 : k ∉ opts1.DpllSettings.keys :=
              fun h => hD ((hdpll.map Prod.fst).mem_iff.2 h)
            rw [habs hD, habs1 hD1]
  · intro io hio pe hpem
    show s.get _ = some pe.2
    refine (hspec _).1 pe.2 ?_
    simp only [phaseAssignments, phaseEntries, List.mem_map, List.mem_flatMap]
    exact ⟨(io.1, pe.1, pe.2), ⟨io, hio, pe, hpem, rfl⟩, rfl⟩

theorem OnPTPConfigChangeE810_order_independent_example :
    Reordered twoPortOpts twoPortOptsReversed ∧
    (∀ iface ∈ twoPortOpts.PhaseOffsetPins.keys, iface ∈ twoPortOpts.DevicePins.keys) ∧
    ∃ out out1,
      OnPTPConfigChangeE810 2 dsnEnv (profileOf twoPortOpts) = Run.ret out ∧
      OnPTPConfigChangeE810 2 dsnEnv (profileOf twoPortOptsReversed) = Run.ret out1 ∧
      (∀ k, settingsGet out.1.PtpSettings k = settingsGet out1.1.PtpSettings k) ∧
      settingsGet out1.1.PtpSettings "ens1f0.phaseOffsetFilter.9833440827789222417.type"
        = some "input" := by
  have hre : Reordered twoPortOpts twoPortOptsReversed :=
    ⟨by decide, by decide, by decide, by decide⟩
  have hlisted : ∀ iface ∈ twoPortOpts.PhaseOffsetPins.keys,
      iface ∈ twoPortOpts.DevicePins.keys := by decide
  have hid0 : getClockIdE810 2 dsnEnv.readFile "ens1f0" = Run.ret 0x8877665544332211 := by
    show getClockIdE810 2 (oneFile (configPath "ens1f0") dsnImage) "ens1f0" = _
    rw [getClockIdE810_oneFile]; decide
  have hid1 : getClockIdE810 2 dsnEnv.readFile "ens1f1" = Run.ret 0 := by decide
  have hres : ∀ d ∈ twoPortOpts.DevicePins.keys,
      ∃ id, getClockIdE810 2 dsnEnv.readFile d = Run.ret id := by
    intro d hd
    have hd1 : d = "ens1f0" ∨ d = "ens1f1" := by simpa [twoPortOpts, GoMap.keys] using hd
    rcases hd1 with rfl | rfl
    · exact ⟨_, hid0⟩
    · exact ⟨_, hid1⟩
  obtain ⟨out, out1, h1, h2, h3, h4⟩ := OnPTPConfigChangeE810_order_independent 2 dsnEnv
    (profileOf twoPortOpts) (profileOf twoPortOptsReversed) twoPortOpts twoPortOptsReversed
    (by decide) (by simp [profileOf]) (by decide) (by simp [profileOf]) rfl hre rfl hres
    (by decide) hlisted (by decide)
  refine ⟨hre, hlisted, out, out1, h1, h2, h3, ?_⟩
  rw [← h3]
  have := h4 ("ens1f0", [("boardLabel", "GNSS-1PPS"), ("type", "input")])
    (by simp [twoPortOpts]) ("type", "input") (by simp)
  rw [resolved_eq hid0] at this
  have hkey : "ens1f0.phaseOffsetFilter.9833440827789222417.type"
      = "ens1f0" ++ ".phaseOffsetFilter." ++ FormatUint 0x8877665544332211 ++ "." ++ "type" := by
    decide
  rw [hkey]
  exact this

end Intel

namespace Daemon

/-! ## C8: the gauges after a status line -/

theorem parseNum_not_marker {s : String} {v : Int} (h : parseNum s = some v) :
    s ∉ markers := by
  intro hm
  simp only [markers, List.mem_cons, List.mem_singleton, List.not_mem_nil, or_false] at hm
  have h1 : parseNum "phc" = none := by decide
  have h2 : parseNum "master" = none := by decide
  have h3 : parseNum "offset" = none := by decide
  have h4 : parseNum "freq" = none := by decide
  have h5 : parseNum "delay" = none := by decide
  rcases hm with rfl | rfl | rfl | rfl | rfl <;> simp_all

theorem stamp_not_marker (name time : String) : name ++ "[" ++ time ++ "]:" ∉ markers := by
  intro hm
  simp only [markers, List.mem_cons, List.mem_singleton, List.not_mem_nil, or_false] at hm
  rcases hm with h | h | h | h | h <;>
  · have := congrArg (fun s => s.data.reverse.head?) h
    simp at this

theorem not_marker {s : String} (h : s ∉ markers) :
    s ≠ "phc" ∧ s ≠ "master" ∧ s ≠ "offset" ∧ s ≠ "freq" ∧ s ≠ "delay" := by
  simp only [markers, List.mem_cons, List.mem_singleton, List.not_mem_nil, or_false, not_or] at h
  exact h

theorem digitChar_isDigit (m : Nat) (h : m < 10) :
    (Nat.digitChar m).isDigit = true ∧ (Nat.digitChar m).toNat - 48 = m := by
  interval_cases m <;> decide

theorem toDigitsCore_head (fuel : Nat) : ∀ (n : Nat) (d : Char) (ds : List Char),
    d.isDigit = true →
    ∃ c cs, Nat.toDigitsCore 10 fuel n (d :: ds) = c :: cs ∧ c.isDigit = true := by
  induction fuel with
  | zero => intro n d ds hd; exact ⟨d, ds, rfl, hd⟩
  | succ fuel ih =>
    intro n d ds hd
    have hm := (digitChar_isDigit (n % 10) (Nat.mod_lt _ (by decide))).1
    unfold Nat.toDigitsCore
    by_cases h0 : n / 10 = 0
    · simp only [h0, if_true]
      exact ⟨_, _, rfl, hm⟩
    · simp only [h0, if_false]
      exact ih _ _ _ hm

theorem toDigits_head (n : Nat) :
    ∃ c cs, Nat.toDigits 10 n = c :: cs ∧ c.isDigit = true := by
  have hm := (digitChar_isDigit (n % 10) (Nat.mod_lt _ (by decide))).1
  unfold Nat.toDigits Nat.toDigitsCore
  by_cases h0 : n / 10 = 0
  · simp only [h0, if_true]
    exact ⟨_, _, rfl, hm⟩
  · simp only [h0, if_false]
    exact toDigitsCore_head _ _ _ _ hm

theorem parseDigits_toDigitsCore (fuel : Nat) : ∀ (n : Nat) (ds : List Char), n < fuel →
    ∃ k, ∀ acc, parseDigits (Nat.toDigitsCore 10 fuel n ds) acc
      = parseDigits ds (acc * 10 ^ k + n) := by
  induction fuel with
  | zero => intro n ds h; omega
  | succ fuel ih =>
    intro n ds h
    obtain ⟨hd, hv⟩ := digitChar_isDigit (n % 10) (Nat.mod_lt _ (by decide))
    unfold Nat.toDigitsCore
    by_cases h0 : n / 10 = 0
    · simp only [h0, if_true]
      refine ⟨1, fun acc => ?_⟩
      have hn : n % 10 = n := Nat.mod_eq_of_lt (by omega)
      simp only [parseDigits, hd, if_true]
      rw [hv, hn, pow_one]
      congr 1
      omega
    · simp only [h0, if_false]
      obtain ⟨k, hk⟩ := ih (n / 10) (Nat.digitChar (n % 10) :: ds) (by omega)
      refine ⟨k + 1, fun acc => ?_⟩
      rw [hk]
      simp only [parseDigits, hd, if_true, hv]
      congr 1
      have := Nat.div_add_mod n 10
      rw [pow_succ]
      nlinarith [this]

/-- Reading the decimal digits of a number gives the number. -/
theorem parseDigits_toDigits (n : Nat) : parseDigits (Nat.toDigits 10 n) 0 = some n := by
  obtain ⟨k, hk⟩ := parseDigits_toDigitsCore (n + 1) n [] (by omega)
  unfold Nat.toDigits
  rw [hk]
  simp [parseDigits]

theorem toList_append_asString (a : String) (l : List Char) :
    (a ++ l.asString).toList = a.toList ++ l := by
  simp [String.toList, List.asString]

/-- The numeric decoding reads every printed number as its value. -/
theorem parseNum_numeral (plus : Bool) (v : Int) : parseNum (numeral plus v) = some v := by
  unfold numeral
  by_cases hv : v < 0
  · obtain ⟨c, cs, hc, _⟩ := toDigits_head v.natAbs
    have hne : Nat.toDigits 10 v.natAbs ≠ [] := by rw [hc]; simp
    have hl : ("-" ++ (Nat.toDigits 10 v.natAbs).asString).toList
        = '-' :: Nat.toDigits 10 v.natAbs := by
      rw [toList_append_asString]; rfl
    simp only [hv, if_true, parseNum, Nat.repr, hl, hne, if_false, parseDigits_toDigits,
      Option.map_some']
    congr 1
    omega
  · obtain ⟨c, cs, hc, hd⟩ := toDigits_head v.toNat
    have hne : Nat.toDigits 10 v.toNat ≠ [] := by rw [hc]; simp
    have hval : ((v.toNat : Nat) : Int) = v := Int.toNat_of_nonneg (by omega)
    cases plus with
    | true =>
      have hl : ("+" ++ (Nat.toDigits 10 v.toNat).asString).toList
          = '+' :: Nat.toDigits 10 v.toNat := by
        rw [toList_append_asString]; rfl
      have hpm : ¬ ('+' = '-') := by decide
      simp only [hv, if_false, if_true, parseNum, Nat.repr, hl, hpm, hne,
        parseDigits_toDigits, Option.map_some', hval]
    | false =>
      have hl : ("" ++ (Nat.toDigits 10 v.toNat).asString).toList
          = c :: cs := by
        rw [toList_append_asString, hc]; rfl
      have hc1 : ¬ c = '-' := by
        intro h; rw [h] at hd; revert hd; decide
      have hc2 : ¬ c = '+' := by
        intro h; rw [h] at hd; revert hd; decide
      simp only [hv, if_false, parseNum, Nat.repr, hl, hc1, hc2, Bool.false_eq_true]
      rw [← hc, parseDigits_toDigits]
      simp only [Option.map_some', hval]

theorem inRange_of_bounds {v : Int} (h : -(2 ^ 63) ≤ v ∧ v < 2 ^ 63) : inRange v = true := by
  obtain ⟨h1, h2⟩ := h
  simp only [inRange, Bool.and_eq_true, decide_eq_true_eq]
  exact ⟨h1, h2⟩

/-- The sample the parser decodes from a line of the regular shape. -/
theorem parse_regular (name tag line time iface src st : String)
    (tail : List String) (o f d : Int) (po pf pd : Bool)
    (hname : name = "phc2sys" ∨ name = "ts2phc")
    (hline : Fields line
      = [name ++ "[" ++ time ++ "]:", tag, iface, src, "offset", numeral po o, st, "freq",
          numeral pf f] ++ tail)
    (htail : (tail = [] ∧ d = 0) ∨ tail = ["delay", numeral pd d])
    (hsrc : src = "phc" ∨ src = "master")
    (hst : st = "s0" ∨ st = "s1" ∨ st = "s2")
    (hrange : (-(2 ^ 63) ≤ o ∧ o < 2 ^ 63) ∧ (-(2 ^ 63) ≤ f ∧ f < 2 ^ 63) ∧
      (-(2 ^ 63) ≤ d ∧ d < 2 ^ 63))
    (htag : tag ∉ markers) (hif : iface ∉ markers) :
    parse name tag line
      = some { source := src, iface := iface, offset := o, frequencyAdjustment := f,
               delay := d, state := stateOfToken st } := by
  have ho : parseNum (numeral po o) = some o := parseNum_numeral po o
  have hf : parseNum (numeral pf f) = some f := parseNum_numeral pf f
  obtain ⟨p1, p2, p3, p4, p5⟩ := not_marker (stamp_not_marker name time)
  obtain ⟨t1, t2, t3, t4, t5⟩ := not_marker htag
  obtain ⟨i1, i2, i3, i4, i5⟩ := not_marker hif
  obtain ⟨o1, o2, o3, o4, o5⟩ := not_marker (parseNum_not_marker ho)
  obtain ⟨f1, f2, f3, f4, f5⟩ := not_marker (parseNum_not_marker hf)
  have r1 := inRange_of_bounds hrange.1
  have r2 := inRange_of_bounds hrange.2.1
  have r3 := inRange_of_bounds hrange.2.2
  have hsrc3 : src ≠ "offset" ∧ src ≠ "freq" ∧ src ≠ "delay" := by
    rcases hsrc with rfl | rfl <;> decide
  have hst3 : st ≠ "offset" ∧ st ≠ "freq" ∧ st ≠ "delay" := by
    rcases hst with rfl | rfl | rfl <;> decide
  have hsource : sourceOf (Fields line) = some (iface, src) := by
    rw [hline]
    simp only [List.cons_append, List.nil_append, sourceOf, t1, t2, i1, i2, or_self, if_false]
    rcases hsrc with rfl | rfl <;> simp
  have hoff : afterMarker "offset" (Fields line) = some (numeral po o) := by
    rw [hline]
    simp [afterMarker, p3, t3, i3, hsrc3.1]
  have hstate : secondAfterMarker "offset" (Fields line) = some st := by
    rw [hline]
    simp [secondAfterMarker, p3, t3, i3, hsrc3.1]
  have hfreq : afterMarker "freq" (Fields line) = some (numeral pf f) := by
    rw [hline]
    simp [afterMarker, p4, t4, i4, hsrc3.2.1, o4, hst3.2.1]
  have hdelay : (match afterMarker "delay" (Fields line) with
      | none => some (0 : Int)
      | some sd => parseNum sd) = some d := by
    rw [hline]
    rcases htail with ⟨rfl, rfl⟩ | rfl
    · simp [afterMarker, p5, t5, i5, hsrc3.2.2, o5, hst3.2.2]
    · simp [afterMarker, p5, t5, i5, hsrc3.2.2, o5, hst3.2.2, f5, parseNum_numeral]
  have hmem : tag ∈ Fields line := by
    rw [hline]
    simp
  unfold parse
  simp only [hname, hmem, and_self, if_true, hsource, hoff, hfreq, ho, hf, hdelay, hstate,
    r1, r2, r3, Bool.and_self, Option.some_bind]

/-- C8. For a process `phc2sys` or `ts2phc` and a status line whose fields are
`<proc>[<time>]:`, the message tag, an interface, `phc` or `master`, `offset`, the
number `o`, `s0`, `s1` or `s2`, `freq`, the number `f` and then nothing or `delay` and
the number `d` (numbers of 64-bit magnitude, printed in decimal with or without a `+`;
the tag and the interface are not marker words), `ProcessPTPMetrics` sets, for that
source, process, node and interface, the Offset and the MaxOffset gauge to `o`, the
FrequencyAdjustment gauge to `f`, the Delay gauge to `d` (to 0 without a delay field)
and the ClockState gauge to 1 for `s2` and to 0 for `s0`. -/
theorem ProcessPTPMetrics_sets_gauges (p : PtpProcess) (g : Gauges)
    (line time iface src st : String) (tail : List String) (o f d : Int) (po pf pd : Bool)
    (hname : p.Name = "phc2sys" ∨ p.Name = "ts2phc")
    (hline : Fields line
      = [p.Name ++ "[" ++ time ++ "]:", p.MessageTag, iface, src, "offset", numeral po o, st,
          "freq", numeral pf f] ++ tail)
    (htail : (tail = [] ∧ d = 0) ∨ tail = ["delay", numeral pd d])
    (hsrc : src = "phc" ∨ src = "master")
    (hst : st = "s0" ∨ st = "s1" ∨ st = "s2")
    (hrange : (-(2 ^ 63) ≤ o ∧ o < 2 ^ 63) ∧ (-(2 ^ 63) ≤ f ∧ f < 2 ^ 63) ∧
      (-(2 ^ 63) ≤ d ∧ d < 2 ^ 63))
    (htag : p.MessageTag ∉ markers) (hif : iface ∉ markers) :
    (ProcessPTPMetrics p g line).Offset (src, p.Name, g.node, iface) = some o ∧
    (ProcessPTPMetrics p g line).MaxOffset (src, p.Name, g.node, iface) = some o ∧
    (ProcessPTPMetrics p g line).FrequencyAdjustment (src, p.Name, g.node, iface) = some f ∧
    (ProcessPTPMetrics p g line).Delay (src, p.Name, g.node, iface) = some d ∧
    (st = "s2" → (ProcessPTPMetrics p g line).ClockState (p.Name, g.node, iface) = some 1) ∧
    (st = "s0" → (ProcessPTPMetrics p g line).ClockState (p.Name, g.node, iface) = some 0) := by
  have hparse := parse_regular p.Name p.MessageTag line time iface src st tail o f d
    po pf pd hname hline htail hsrc hst hrange htag hif
  unfold ProcessPTPMetrics
  rw [hparse]
  refine ⟨by simp [setGauge], by simp [setGauge], by simp [setGauge], by simp [setGauge],
    ?_, ?_⟩
  · rintro rfl
    simp [stateOfToken, setGauge, ClockQuality.gauge]
  · rintro rfl
    simp [stateOfToken, setGauge, ClockQuality.gauge]

theorem ProcessPTPMetrics_sets_gauges_witness :
    Fields "phc2sys[1823126.732]: [ptp4l.0.config] CLOCK_REALTIME phc offset       -10 s2 freq   +8956 delay    508"
      = ["phc2sys" ++ "[" ++ "1823126.732" ++ "]:", "[ptp4l.0.config]", "CLOCK_REALTIME", "phc",
          "offset", numeral false (-10), "s2", "freq", numeral true 8956]
        ++ ["delay", numeral false 508] ∧
    (ProcessPTPMetrics phc2sysProcess cleanGauges
      "phc2sys[1823126.732]: [ptp4l.0.config] CLOCK_REALTIME phc offset       -10 s2 freq   +8956 delay    508").Offset
      ("phc", "phc2sys", "mynode", "CLOCK_REALTIME") = some (-10) ∧
    (ProcessPTPMetrics phc2sysProcess cleanGauges
      "phc2sys[1823126.732]: [ptp4l.0.config] CLOCK_REALTIME phc offset       -10 s2 freq   +8956 delay    508").FrequencyAdjustment
      ("phc", "phc2sys", "mynode", "CLOCK_REALTIME") = some 8956 ∧
    (ProcessPTPMetrics phc2sysProcess cleanGauges
      "phc2sys[1823126.732]: [ptp4l.0.config] CLOCK_REALTIME phc offset       -10 s2 freq   +8956 delay    508").Delay
      ("phc", "phc2sys", "mynode", "CLOCK_REALTIME") = some 508 ∧
    (ProcessPTPMetrics phc2sysProcess cleanGauges
      "phc2sys[1823126.732]: [ptp4l.0.config] CLOCK_REALTIME phc offset       -10 s2 freq   +8956 delay    508").ClockState
      ("phc2sys", "mynode", "CLOCK_REALTIME") = some 1 ∧
    (ProcessPTPMetrics ts2phcProcess cleanGauges
      "ts2phc[1896327.319]: [ts2phc.0.config] ens2f0 master offset         3 s0 freq      4").Offset
      ("master", "ts2phc", "mynode", "ens2f0") = some 3 ∧
    (ProcessPTPMetrics ts2phcProcess cleanGauges
      "ts2phc[1896327.319]: [ts2phc.0.config] ens2f0 master offset         3 s0 freq      4").Delay
      ("master", "ts2phc", "mynode", "ens2f0") = some 0 ∧
    (ProcessPTPMetrics ts2phcProcess cleanGauges
      "ts2phc[1896327.319]: [ts2phc.0.config] ens2f0 master offset         3 s0 freq      4").ClockState
      ("ts2phc", "mynode", "ens2f0") = some 0 := by
  have hline : Fields "phc2sys[1823126.732]: [ptp4l.0.config] CLOCK_REALTIME phc offset       -10 s2 freq   +8956 delay    508"
      = ["phc2sys" ++ "[" ++ "1823126.732" ++ "]:", "[ptp4l.0.config]", "CLOCK_REALTIME", "phc",
          "offset", numeral false (-10), "s2", "freq", numeral true 8956]
        ++ ["delay", numeral false 508] := by decide
  obtain ⟨h1, _, h3, h4, h5, _⟩ := ProcessPTPMetrics_sets_gauges phc2sysProcess cleanGauges
    "phc2sys[1823126.732]: [ptp4l.0.config] CLOCK_REALTIME phc offset       -10 s2 freq   +8956 delay    508"
    "1823126.732" "CLOCK_REALTIME" "phc" "s2" ["delay", numeral false 508] (-10) 8956 508
    false true false
    (Or.inl rfl) hline (Or.inr rfl) (Or.inl rfl) (Or.inr (Or.inr rfl))
    (by decide) (by decide) (by decide)
  obtain ⟨k1, _, _, k4, _, k6⟩ := ProcessPTPMetrics_sets_gauges ts2phcProcess cleanGauges
    "ts2phc[1896327.319]: [ts2phc.0.config] ens2f0 master offset         3 s0 freq      4"
    "1896327.319" "ens2f0" "master" "s0" [] 3 4 0 false false false
    (Or.inr rfl) (by decide) (Or.inl ⟨rfl, rfl⟩) (Or.inr rfl) (Or.inl rfl)
    (by decide) (by decide) (by decide)
  exact ⟨hline, h1, h3, h4, h5 rfl, k1, k4, k6 rfl⟩

end Daemon
